import Mathlib

/-!
# PHR-Backend: verification of the vendor sync engine

Shallow embedding, in Lean 4, of the parts of the PHR-Backend repository
(FastAPI + SQLAlchemy, Python) that the specification's claims talk about:

* `app/services/ingestion/fitbit_ingestion_service.py` — ingestion
  orchestration (`ingest`), the per-day normalizer (`_normalize_day`) and the
  dedupe-identifier builder (`_dedupe_identifier`);
* `app/services/fhir_mapper.py` — the FHIR observation constructor
  (`create_observation`), the legacy heart-rate mapper
  (`map_fitbit_heart_rate`) and the publisher
  (`post_observations_to_fhir`);
* `app/services/sync_job_service.py` — the durable job queue
  (`claim_next_queued_job`, `mark_success`, `mark_failed`, `enqueue`);
* `app/services/encryption.py` — the token-encryption wrapper.

Modelling conventions:

* Python `datetime` values are modelled by `PDateTime`: a wall-clock reading
  in seconds since the Unix epoch plus an optional UTC offset (`none` models
  a naive datetime, `some o` an aware one whose zone has UTC offset `o`
  seconds).
* `pytz` time zones are modelled as fixed UTC offsets drawn from a finite
  zone table; `pytz.timezone` on a name outside the table raises
  `UnknownTimeZoneError`, modelled as `Except.error`.  No claim in scope
  depends on DST transitions, so the fixed-offset simplification is sound
  for the properties proved here.
* Code that can raise is embedded in `Except String`; the ambient clock
  (`datetime.now`) is passed in explicitly as a `nowUtc : Int` parameter
  (seconds since the epoch, UTC).
* Python numeric observation values are modelled as `Int` (the claims in
  scope count observations and compare sample values for equality; none
  depends on float rounding).
-/

namespace PHR

/-- Model of a Python `datetime`: `wall` is the wall-clock reading encoded as
seconds since the Unix epoch (i.e. what the Y-M-D H:M:S fields spell when read
as a UTC time), `offset` is the attached zone's UTC offset in seconds, or
`none` for a naive datetime. -/
structure PDateTime where
  wall : Int
  offset : Option Int
deriving DecidableEq, Repr

/-- The instant an aware `PDateTime` denotes (seconds since the epoch).  For a
naive datetime this reads the wall clock as UTC, matching how the code's
`pytz.UTC.localize` treats naive values. -/
def PDateTime.instant (d : PDateTime) : Int :=
  d.wall - (d.offset.getD 0)

/-- `tz.localize(naive_dt)` in the fixed-offset model: attach the zone, keep
the wall reading. -/
def tzLocalize (off : Int) (d : PDateTime) : PDateTime :=
  { wall := d.wall, offset := some off }

/-- `dt.astimezone(tz)` for an aware datetime: same instant, re-expressed with
the target zone's offset. -/
def astimezone (off : Int) (d : PDateTime) : PDateTime :=
  { wall := d.instant + off, offset := some off }

/-- `datetime.now(tz)` given the current UTC instant `nowUtc`. -/
def pynow (off : Int) (nowUtc : Int) : PDateTime :=
  { wall := nowUtc + off, offset := some off }

/-- The fixed zone table backing the `pytz` model (name, UTC offset seconds). -/
def pytzZoneTable : List (String × Int) :=
  [("UTC", 0), ("Asia/Jakarta", 25200), ("Asia/Tokyo", 32400),
   ("Europe/London", 0), ("America/New_York", -18000)]

/-- `pytz.timezone(name)`: the zone's offset, or `UnknownTimeZoneError` when
the name is not in the zone database. -/
def pytz_timezone (name : String) : Except String Int :=
  match pytzZoneTable.lookup name with
  | some off => .ok off
  | none => .error ("UnknownTimeZoneError: " ++ name)

/-! ## Civil-calendar conversions (for `strftime`/`isoformat` strings) -/

/-- Days since 1970-01-01 of a civil date (Howard Hinnant's algorithm, as the
CPython datetime module computes ordinals). -/
def days_from_civil (y m d : Int) : Int :=
  let y' := if m ≤ 2 then y - 1 else y
  let era := (if 0 ≤ y' then y' else y' - 399) / 400
  let yoe := y' - era * 400
  let mp := if 2 < m then m - 3 else m + 9
  let doy := (153 * mp + 2) / 5 + d - 1
  let doe := yoe * 365 + yoe / 4 - yoe / 100 + doy
  era * 146097 + doe - 719468

/-- Civil date (year, month, day) of a count of days since 1970-01-01. -/
def civil_from_days (z0 : Int) : Int × Int × Int :=
  let z := z0 + 719468
  let era := (if 0 ≤ z then z else z - 146096) / 146097
  let doe := z - era * 146097
  let yoe := (doe - doe / 1460 + doe / 36524 - doe / 146096) / 365
  let y := yoe + era * 400
  let doy := doe - (365 * yoe + yoe / 4 - yoe / 100)
  let mp := (5 * doy + 2) / 153
  let d := doy - (153 * mp + 2) / 5 + 1
  let m := if mp < 10 then mp + 3 else mp - 9
  (if m ≤ 2 then y + 1 else y, m, d)

/-- Zero-padded two-digit decimal rendering. -/
def pad2 (n : Nat) : String :=
  if n < 10 then "0" ++ toString n else toString n

/-- Zero-padded four-digit decimal rendering. -/
def pad4 (n : Nat) : String :=
  if n < 10 then "000" ++ toString n
  else if n < 100 then "00" ++ toString n
  else if n < 1000 then "0" ++ toString n
  else toString n

/-- `dt.strftime("%Y%m%d%H%M%S")` of a wall-clock reading (seconds since
epoch, as stored in `PDateTime.wall`). -/
def strftime14 (wall : Int) : String :=
  let days := wall.fdiv 86400
  let sod := (wall - days * 86400).toNat
  let c := civil_from_days days
  pad4 c.1.toNat ++ pad2 c.2.1.toNat ++ pad2 c.2.2.toNat ++
    pad2 (sod / 3600) ++ pad2 (sod % 3600 / 60) ++ pad2 (sod % 60)

/-- A civil date (`datetime.date`). -/
structure PDate where
  year : Nat
  month : Nat
  day : Nat
deriving DecidableEq, Repr

/-- `date.isoformat()`: `YYYY-MM-DD`. -/
def PDate.iso (d : PDate) : String :=
  pad4 d.year ++ "-" ++ pad2 d.month ++ "-" ++ pad2 d.day

/-- A time of day, as parsed from a Fitbit `"HH:MM:SS"` time string. -/
structure TimeOfDay where
  hour : Nat
  minute : Nat
  second : Nat
deriving DecidableEq, Repr

/-- The `"HH:MM:SS"` rendering of a time of day. -/
def TimeOfDay.iso (t : TimeOfDay) : String :=
  pad2 t.hour ++ ":" ++ pad2 t.minute ++ ":" ++ pad2 t.second

/-- `datetime.fromisoformat(f"{day}T{time}")`: the naive datetime with those
civil fields. -/
def dtOfDayTime (d : PDate) (t : TimeOfDay) : PDateTime :=
  { wall := days_from_civil d.year d.month d.day * 86400
      + (t.hour * 3600 + t.minute * 60 + t.second : Nat),
    offset := none }

/-! ## `FitbitIngestionService._dedupe_identifier` (C9) -/

/-- `FitbitIngestionService._dedupe_identifier`: localize a naive effective
datetime to UTC, convert to UTC, format with `%Y%m%d%H%M%S`, and join the
dedupe dimensions with `-`.  (`self.vendor = "fitbit"`.) -/
def dedupe_identifier (patient_id observation_type : String)
    (effective_datetime : PDateTime) (vendor_source_id : String) : String :=
  let eff := if effective_datetime.offset = none
    then tzLocalize 0 effective_datetime else effective_datetime
  let ts := strftime14 (astimezone 0 eff).wall
  "fitbit" ++ "-" ++ patient_id ++ "-" ++ observation_type ++ "-" ++ ts
    ++ "-" ++ vendor_source_id

/-! ## `TokenEncryption` (C10) -/

/-- The interface of the symmetric cipher (`cryptography.fernet.Fernet`)
configured by `TokenEncryption.__init__`.  The cipher itself is an external
library; its documented round-trip contract is taken as a hypothesis where
needed. -/
structure FernetCipher where
  enc : String → String
  dec : String → String

/-- `TokenEncryption.encrypt`: empty data is returned as `""` without
invoking the cipher; otherwise the cipher's encryption of the data. -/
def TokenEncryption.encrypt (c : FernetCipher) (data : String) : String :=
  if data = "" then "" else c.enc data

/-- `TokenEncryption.decrypt`: empty data is returned as `""` without
invoking the cipher; otherwise the cipher's decryption of the data. -/
def TokenEncryption.decrypt (c : FernetCipher) (encrypted_data : String) : String :=
  if encrypted_data = "" then "" else c.dec encrypted_data

/-! ## `FitbitIngestionService._normalize_day` (C1, C4, C5, C6)

The raw Fitbit day payload is a nest of JSON dicts; the embedding keeps the
fields the normalizer reads, after the code's defaulting chains
(`(data.get(k) or {}).get(...)`).  A sample's `time`/`value` keys may be
absent (`None`), modelled with `Option`; a present Fitbit time string always
has the `"HH:MM:SS"` shape, modelled structurally by `TimeOfDay` (so the
code's `int(time_str.split(":")[0])` is `t.hour`, and Python's
`not time_str` is `time = none`). -/

/-- One entry of an intraday `dataset` list: `{"time": ..., "value": ...}`. -/
structure IntradaySample where
  time : Option TimeOfDay
  value : Option Int
deriving DecidableEq, Repr

/-- One entry of the body-weight `weight` log list.  The `bmi` and `source`
keys are carried into free-form metadata only and are not modelled. -/
structure WeightLog where
  weight : Option Int
  date : Option PDate
  time : Option TimeOfDay
  logId : Option Nat
deriving DecidableEq, Repr

/-- The day payload `_normalize_day` reads, flattened along the code's
access paths:
* `heart_rate_intraday` = `(d.get("heart_rate") or {}).get("activities-heart-intraday", {}).get("dataset", [])`
* `spo2_avg` = `((d.get("spo2") or {}).get("value") or {}).get("avg")`
* `weight_logs` = `(d.get("body_weight") or {}).get("weight", []) or []`
* `calories_intraday` = `(d.get("calories_timeseries") or {}).get("activities-calories-intraday", {}).get("dataset", [])` -/
structure FitbitDayData where
  heart_rate_intraday : List IntradaySample
  spo2_avg : Option Int
  weight_logs : List WeightLog
  calories_intraday : List IntradaySample
deriving DecidableEq, Repr

/-- A day payload in which every dataset is absent/empty. -/
def emptyFitbitDayData : FitbitDayData :=
  { heart_rate_intraday := [], spo2_avg := none, weight_logs := [],
    calories_intraday := [] }

/-- `NormalizedObservationDTO` (`app/services/ingestion/dtos.py`).  Of the
free-form `additional_data` dict only the `"type"` entry is modelled (it is
the only one any claim mentions); `additional_type = none` models a dict
without a `"type"` key. -/
structure NormalizedObservationDTO where
  vendor : String
  observation_type : String
  effective_datetime : PDateTime
  value : Int
  unit : String
  vendor_source_id : String
  additional_type : Option String
deriving DecidableEq, Repr

/-- `tz = pytz.timezone(user_timezone) if user_timezone else pytz.UTC`
(line 119): a falsy (empty) time-zone string means UTC without a zone-table
lookup; any other string goes through `pytz.timezone` and may raise. -/
def userTz (user_timezone : String) : Except String Int :=
  if user_timezone = "" then Except.ok 0 else pytz_timezone user_timezone

/-- One iteration of `_normalize_day`'s heart-rate intraday loop (lines
126–148): skip samples without a truthy time or with a null value, keep
even hours only, localize the naive `{day}T{time}` reading to the user
zone. -/
def hrSampleObs (day : PDate) (tz : Int) (dp : IntradaySample) :
    Option NormalizedObservationDTO :=
  match dp.time, dp.value with
  | some t, some v =>
    if t.hour % 2 ≠ 0 then none
    else
      some { vendor := "fitbit", observation_type := "heart_rate",
             effective_datetime := tzLocalize tz (dtOfDayTime day t),
             value := v, unit := "beats/min",
             vendor_source_id := "heart_rate:" ++ day.iso ++ ":" ++ t.iso,
             additional_type := some "intraday" }
  | _, _ => none

/-- `_normalize_day`'s SpO2 section (lines 150–168): one observation from
the daily average, timestamped "now" in the user zone. -/
def spo2SectionObs (day : PDate) (tz nowUtc : Int) (avg? : Option Int) :
    List NormalizedObservationDTO :=
  match avg? with
  | some avg =>
    [{ vendor := "fitbit", observation_type := "spo2",
       effective_datetime := pynow tz nowUtc, value := avg, unit := "%",
       vendor_source_id := "spo2:" ++ day.iso, additional_type := none }]
  | none => []

/-- One iteration of `_normalize_day`'s weight-log loop (lines 170–196):
skip logs without a weight; timestamp from the log's date/time when a truthy
time exists, else "now"; source id prefers the vendor `logId`. -/
def weightLogObs (day : PDate) (tz nowUtc : Int) (lg : WeightLog) :
    Option NormalizedObservationDTO :=
  match lg.weight with
  | none => none
  | some w =>
    let dateS := lg.date.getD day
    let dt := match lg.time with
      | some t => tzLocalize tz (dtOfDayTime dateS t)
      | none => pynow tz nowUtc
    let vsi := match lg.logId with
      | some i => "weight:" ++ toString i
      | none => "weight:" ++ dateS.iso ++ ":" ++
          (match lg.time with | some t => t.iso | none => "na")
    some { vendor := "fitbit", observation_type := "body_weight",
           effective_datetime := dt, value := w, unit := "kg",
           vendor_source_id := vsi, additional_type := none }

/-- `_normalize_day`'s calories section (lines 198–220): reduce the intraday
dataset to its latest non-null sample; emit one day-keyed observation when
that sample also carries a truthy time and value. -/
def caloriesSectionObs (day : PDate) (tz : Int)
    (dataset : List IntradaySample) : List NormalizedObservationDTO :=
  match dataset.reverse.find? (fun dp => dp.value.isSome) with
  | some latest =>
    match latest.time, latest.value with
    | some t, some v =>
      [{ vendor := "fitbit", observation_type := "calories",
         effective_datetime := tzLocalize tz (dtOfDayTime day t),
         value := v, unit := "kcal",
         vendor_source_id := "calories:" ++ day.iso,
         additional_type := some "daily_latest" }]
    | _, _ => []
  | none => []

/-- `FitbitIngestionService._normalize_day`.  Raising
(`pytz.UnknownTimeZoneError` from the `pytz.timezone` call on line 119) is
modelled as `Except.error`; the ambient clock is the `nowUtc` parameter.
The four dataset sections append in the code's order. -/
def normalize_day (data : FitbitDayData) (day : PDate) (user_timezone : String)
    (nowUtc : Int) : Except String (List NormalizedObservationDTO) :=
  match userTz user_timezone with
  | .error e => .error e
  | .ok tz =>
    .ok (data.heart_rate_intraday.filterMap (hrSampleObs day tz)
      ++ spo2SectionObs day tz nowUtc data.spo2_avg
      ++ data.weight_logs.filterMap (weightLogObs day tz nowUtc)
      ++ caloriesSectionObs day tz data.calories_intraday)

/-! ## `FitbitIngestionService.ingest` — accumulation and watermark filter -/

/-- `pytz.UTC.localize` applied when the datetime is naive, as `ingest` does
to `after_datetime` (lines 51–52) before any comparison. -/
def utc_localize_if_naive (d : PDateTime) : PDateTime :=
  if d.offset = none then tzLocalize 0 d else d

/-- The day-by-day accumulation loop of `ingest` (lines 57–62): each day's
fetched payload is normalized and the results concatenated in day order.
The vendor fetch is external I/O, so the per-day payloads appear here as the
`days` input. -/
def ingest_collect (days : List (PDate × FitbitDayData)) (user_timezone : String)
    (nowUtc : Int) : Except String (List NormalizedObservationDTO) :=
  match days with
  | [] => .ok []
  | (d, data) :: rest =>
    match normalize_day data d user_timezone nowUtc with
    | .error e => .error e
    | .ok first =>
      match ingest_collect rest user_timezone nowUtc with
      | .error e => .error e
      | .ok more => .ok (first ++ more)

/-- The watermark filter of `ingest` (lines 64–66): when `after_datetime` is
provided, keep only DTOs whose effective time is strictly after it.  All DTO
effective datetimes are timezone-aware, and `after_datetime` has been
localized to UTC when naive, so Python's `>` compares instants. -/
def ingest_filter (normalized : List NormalizedObservationDTO)
    (after : Option PDateTime) : List NormalizedObservationDTO :=
  match after with
  | none => normalized
  | some t0 =>
    let t := utc_localize_if_naive t0
    normalized.filter fun dto => decide (t.instant < dto.effective_datetime.instant)

/-- The batch of normalized observations `ingest` hands to the publisher:
accumulate over the day range, then apply the watermark filter.  (The
subsequent FHIR conversion maps this list one-to-one and in order.) -/
def ingest_published_batch (days : List (PDate × FitbitDayData))
    (user_timezone : String) (nowUtc : Int) (after : Option PDateTime) :
    Except String (List NormalizedObservationDTO) :=
  match ingest_collect days user_timezone nowUtc with
  | .error e => .error e
  | .ok normalized => .ok (ingest_filter normalized after)

/-! ## `FHIRMapper` (C3, C7) -/

/-- The keys of `FHIRMapper.LOINC_CODES`. -/
def LOINC_TYPES : List String :=
  ["heart_rate", "spo2", "body_weight", "steps", "calories", "distance",
   "blood_pressure"]

/-- A FHIR Observation resource as `FHIRMapper.create_observation` builds it,
restricted to the fields the claims read.  `identifier_value` is the sole
`identifier` entry's `value` (its `system` is the constant
`http://phr-system.com/observation-id`); the coding/category constants are
functions of `observation_type` and are not repeated here. -/
structure FhirObservation where
  identifier_value : String
  patient_id : String
  observation_type : String
  value : Int
  unit : String
  effective_datetime : PDateTime
  issued : PDateTime
  additional_type : Option String
deriving DecidableEq, Repr

/-- `FHIRMapper.create_observation`.  Unsupported observation types raise
`ValueError`; an unknown user time zone raises `UnknownTimeZoneError` at the
`issued` field (the identifier computation's `try/except` swallows the first
lookup failure, but the second, unguarded `pytz.timezone` call does not). -/
def create_observation (patient_id observation_type : String) (value : Int)
    (unit : String) (effective_datetime : PDateTime)
    (additional_type : Option String) (user_timezone : String)
    (identifier_override : Option String) (nowUtc : Int) :
    Except String FhirObservation :=
  if observation_type ∈ LOINC_TYPES then
    -- try: tz conversion for the identifier; except: keep the datetime as-is
    let p := match pytz_timezone user_timezone with
      | .ok tz =>
        let eff := utc_localize_if_naive effective_datetime
        (eff, astimezone tz eff)
      | .error _ => (effective_datetime, effective_datetime)
    let effective_date := strftime14 p.2.wall
    let additional_key := additional_type.getD ""
    let identifier_value := match identifier_override with
      | some s => s
      | none =>
        let base := "fitbit-" ++ patient_id ++ "-" ++ observation_type
          ++ "-" ++ effective_date
        if additional_key = "" then base else base ++ "-" ++ additional_key
    -- "issued": datetime.now(pytz.timezone(user_timezone)) — unguarded lookup
    match pytz_timezone user_timezone with
    | .error e => .error e
    | .ok tz =>
      .ok { identifier_value := identifier_value, patient_id := patient_id,
            observation_type := observation_type, value := value,
            unit := unit, effective_datetime := p.1,
            issued := pynow tz nowUtc, additional_type := additional_type }
  else .error ("Unsupported observation type: " ++ observation_type)

/-- Python `a <= b` on datetimes: comparing a naive with an aware value
raises `TypeError`; otherwise instants (aware) or wall readings (naive) are
compared. -/
def pyLe (a b : PDateTime) : Except String Bool :=
  match a.offset, b.offset with
  | none, none => .ok (decide (a.wall ≤ b.wall))
  | some _, some _ => .ok (decide (a.instant ≤ b.instant))
  | _, _ => .error "TypeError: cannot compare offset-naive and offset-aware datetimes"

/-- One daily entry of `activities-heart`: the date and the
`value.restingHeartRate` summary field. -/
structure HeartSummaryEntry where
  dateTime : Option PDate
  restingHeartRate : Option Int
deriving DecidableEq, Repr

/-- The payload `FHIRMapper.map_fitbit_heart_rate` reads:
`intraday_dataset` = `d.get("activities-heart-intraday", {}).get("dataset", [])`,
`activities_heart` = `d.get("activities-heart", [])`. -/
structure HeartRateData where
  intraday_dataset : List IntradaySample
  activities_heart : List HeartSummaryEntry
deriving DecidableEq, Repr

/-- The intraday loop of `map_fitbit_heart_rate`: keep truthy time and value
(`value = 0` is falsy and skipped here), even hours only, drop samples not
after `last_sync`; any raised exception is caught by the method's outer
`try/except`, which returns the observations accumulated so far. -/
def mapHRIntradayLoop (patient_id : String) (ds : PDate)
    (last_sync : Option PDateTime) (user_timezone : String) (nowUtc : Int) :
    List IntradaySample → List FhirObservation → List FhirObservation
  | [], acc => acc
  | dp :: rest, acc =>
    match dp.time, dp.value with
    | some t, some v =>
      if v = 0 then
        mapHRIntradayLoop patient_id ds last_sync user_timezone nowUtc rest acc
      else if t.hour % 2 ≠ 0 then
        mapHRIntradayLoop patient_id ds last_sync user_timezone nowUtc rest acc
      else
        let eff := dtOfDayTime ds t
        let keep : Except String Bool := match last_sync with
          | some ls => do
            let le ← pyLe eff ls
            pure (!le)
          | none => .ok true
        match keep with
        | .error _ => acc
        | .ok false =>
          mapHRIntradayLoop patient_id ds last_sync user_timezone nowUtc rest acc
        | .ok true =>
          match create_observation patient_id "heart_rate" v "beats/min" eff
              (some "intraday") user_timezone none nowUtc with
          | .error _ => acc
          | .ok obs =>
            mapHRIntradayLoop patient_id ds last_sync user_timezone nowUtc rest
              (acc ++ [obs])
    | _, _ => mapHRIntradayLoop patient_id ds last_sync user_timezone nowUtc rest acc

/-- The daily-summary fallback loop of `map_fitbit_heart_rate`: for each
`activities-heart` entry with a truthy `restingHeartRate` and `dateTime`,
emit an observation timestamped `datetime.now(tz)` and tagged
`type=resting`. -/
def mapHRFallbackLoop (patient_id : String) (user_timezone : String)
    (nowUtc : Int) :
    List HeartSummaryEntry → List FhirObservation → List FhirObservation
  | [], acc => acc
  | e :: rest, acc =>
    match e.restingHeartRate, e.dateTime with
    | some r, some _ =>
      if r = 0 then mapHRFallbackLoop patient_id user_timezone nowUtc rest acc
      else
        match pytz_timezone user_timezone with
        | .error _ => acc
        | .ok tz =>
          let eff := pynow tz nowUtc
          match create_observation patient_id "heart_rate" r "beats/min" eff
              (some "resting") user_timezone none nowUtc with
          | .error _ => acc
          | .ok obs =>
            mapHRFallbackLoop patient_id user_timezone nowUtc rest (acc ++ [obs])
    | _, _ => mapHRFallbackLoop patient_id user_timezone nowUtc rest acc

/-- `FHIRMapper.map_fitbit_heart_rate`: the intraday branch when the intraday
dataset is non-empty (requiring a first `activities-heart` entry with a
truthy `dateTime`, else no observations), the resting-summary fallback
otherwise. -/
def map_fitbit_heart_rate (patient_id : String) (d : HeartRateData)
    (last_sync : Option PDateTime) (user_timezone : String) (nowUtc : Int) :
    List FhirObservation :=
  if d.intraday_dataset ≠ [] then
    match d.activities_heart.head? with
    | none => []
    | some e0 =>
      match e0.dateTime with
      | none => []
      | some ds =>
        mapHRIntradayLoop patient_id ds last_sync user_timezone nowUtc
          d.intraday_dataset []
  else mapHRFallbackLoop patient_id user_timezone nowUtc d.activities_heart []

/-! ## `FHIRMapper.post_observations_to_fhir` (C3) -/

/-- The outcome of the HTTP POST for one observation: a response status (with
body text), a raised `httpx.HTTPError`, or any other raised exception. -/
inductive PostOutcome where
  | status (code : Nat) (text : String)
  | httpError (msg : String)
  | otherError (msg : String)
deriving DecidableEq, Repr

/-- The summary dict `post_observations_to_fhir` returns. -/
structure PostResult where
  total : Nat
  created : Nat
  skipped : Nat
  failed : Nat
  errors : List String
  success : Nat
deriving DecidableEq, Repr

/-- One iteration of the publisher's loop: classify the outcome of posting
`obs` into exactly one of the three counters, appending a diagnostic on
failure. -/
def postStep (respond : FhirObservation → PostOutcome) (r : PostResult)
    (obs : FhirObservation) : PostResult :=
  match respond obs with
  | .status code text =>
    if code = 201 then { r with created := r.created + 1 }
    else if code = 200 then { r with skipped := r.skipped + 1 }
    else
      { r with failed := r.failed + 1,
               errors := r.errors ++
                 ["Failed to post observation: " ++ toString code ++ " - " ++ text] }
  | .httpError m =>
    { r with failed := r.failed + 1,
             errors := r.errors ++ ["HTTP error posting observation: " ++ m] }
  | .otherError m =>
    { r with failed := r.failed + 1,
             errors := r.errors ++ ["Error posting observation: " ++ m] }

/-- `FHIRMapper.post_observations_to_fhir`.  The HTTP exchange (including the
`If-None-Exist` conditional-create header read by the server) is external
I/O, modelled by the per-observation outcome environment `respond`; the
per-observation `try/except` makes every observation contribute one
iteration regardless of earlier outcomes. -/
def post_observations_to_fhir (observations : List FhirObservation)
    (respond : FhirObservation → PostOutcome) : PostResult :=
  let init : PostResult :=
    { total := observations.length, created := 0, skipped := 0, failed := 0,
      errors := [], success := 0 }
  let r := observations.foldl (postStep respond) init
  { r with success := r.created }

/-! ## `SyncJobService` (C2, C8)

The SQLAlchemy session is modelled as an in-memory database value: a list of
`sync_jobs` rows and a list of `vendor_integrations` rows.  Each service
method becomes a function from database to database (every method ends in a
single `commit`).  A SQL `UPDATE ... WHERE` acts on every matching row
(`List.map` guarded by the predicate); `query(...).first()` followed by ORM
attribute mutation touches only the first matching row (`updateFirst`).
Timestamps (`datetime.now(pytz.UTC)`) are passed in as `now : Nat`. -/

/-- `SyncJob.status` values. -/
inductive JobStatus where
  | queued
  | running
  | success
  | failed
deriving DecidableEq, Repr

/-- A row of the `sync_jobs` table, restricted to the columns the claims
read.  (`max_attempts` and `scheduled_at` are carried by the model but read
by no claim, so they are omitted.) -/
structure SyncJob where
  id : Nat
  created_at : Nat
  user_id : Nat
  vendor : String
  trigger : String
  status : JobStatus
  attempts : Nat
  started_at : Option Nat
  finished_at : Option Nat
  last_error : Option String
deriving DecidableEq, Repr

/-- A row of the `vendor_integrations` table, restricted to the columns the
job-queue methods touch. -/
structure VendorIntegration where
  user_id : Nat
  vendor : String
  is_active : Bool
  sync_status : String
  sync_job_id : Option Nat
  last_successful_sync_at : Option Nat
  last_sync_at : Option Nat
deriving DecidableEq, Repr

/-- The database state the job-queue service reads and writes. -/
structure Db where
  jobs : List SyncJob
  integrations : List VendorIntegration
deriving DecidableEq, Repr

/-- Update the first element satisfying `p` (ORM `query(...).first()` then
attribute mutation); later matches are untouched. -/
def updateFirst (p : α → Bool) (f : α → α) : List α → List α
  | [] => []
  | a :: as => if p a then f a :: as else a :: updateFirst p f as

/-- `db.query(SyncJob).filter(SyncJob.id == jid).first()`. -/
def findJob (db : Db) (jid : Nat) : Option SyncJob :=
  db.jobs.find? fun j => decide (j.id = jid)

/-- The status of the job row with id `jid` (`none` when no such row). -/
def jobStatus (db : Db) (jid : Nat) : Option JobStatus :=
  (findJob db jid).map (·.status)

/-- The `VendorIntegration` row filter used throughout the service:
`user_id == uid AND vendor == v`. -/
def integrationKey (uid : Nat) (v : String) (i : VendorIntegration) : Bool :=
  decide (i.user_id = uid ∧ i.vendor = v)

/-- One comparison step of the `order_by(created_at.asc()).first()` scan:
keep the earlier-created row, the incumbent on ties. -/
def argminStep (acc : Option SyncJob) (j : SyncJob) : Option SyncJob :=
  match acc with
  | none => some j
  | some a => if j.created_at < a.created_at then some j else some a

/-- `order_by(created_at.asc()).first()` over a row list: the first row with
minimal `created_at` (stable on ties). -/
def argminCreated (l : List SyncJob) : Option SyncJob :=
  l.foldl argminStep none

/-- The select phase of `claim_next_queued_job` (lines 66–71): the oldest
`queued` job by creation order. -/
def selectOldestQueued (jobs : List SyncJob) : Option SyncJob :=
  argminCreated (jobs.filter fun j => decide (j.status = JobStatus.queued))

/-- The conditional update's `WHERE` clause:
`id = job.id AND status = 'queued'`. -/
def claimMatches (job : SyncJob) (j : SyncJob) : Bool :=
  decide (j.id = job.id ∧ j.status = JobStatus.queued)

/-- The conditional update's `SET` clause, applied to the rows the `WHERE`
clause selects: `status='running', started_at=now, attempts=attempts+1`. -/
def claimUpdateRow (job : SyncJob) (now : Nat) (j : SyncJob) : SyncJob :=
  if claimMatches job j then
    { j with status := JobStatus.running, started_at := some now,
             attempts := j.attempts + 1 }
  else j

/-- The conditional-update phase of `claim_next_queued_job` (lines 76–100),
applied to the previously selected `job` snapshot: the SQL
`UPDATE sync_jobs SET status='running', started_at=now, attempts=attempts+1
WHERE id = job.id AND status = 'queued'`.  When it affects a number of rows
other than one the session is rolled back and no job is returned (no
internal retry); on success the integration mirror is updated and the
refreshed job row is returned.  `claimedDb` is the session state after the
successful update and the integration-mirror write; `tryClaim` is the whole
conditional-update phase. -/
def claimedDb (db : Db) (job : SyncJob) (now : Nat) : Db :=
  { jobs := db.jobs.map (claimUpdateRow job now),
    integrations := updateFirst (integrationKey job.user_id job.vendor)
      (fun i => { i with sync_status := "running", sync_job_id := some job.id })
      db.integrations }

/-- See `claimedDb`: the conditional-update phase of
`claim_next_queued_job`, returning the refreshed claimed row (or no job on
a lost race) and the resulting session state. -/
def tryClaim (db : Db) (job : SyncJob) (now : Nat) : Option SyncJob × Db :=
  let updated := (db.jobs.filter (claimMatches job)).length
  if updated ≠ 1 then (none, db)
  else
    ((claimedDb db job now).jobs.find? (fun j => decide (j.id = job.id)),
     claimedDb db job now)

/-- `SyncJobService.claim_next_queued_job`: select the oldest queued job,
then attempt the conditional update against the same session state.  (In the
exclusivity theorem the two phases are decoupled, so that the update may run
against a state other sessions have changed since the select.) -/
def claim_next_queued_job (db : Db) (now : Nat) : Option SyncJob × Db :=
  match selectOldestQueued db.jobs with
  | none => (none, db)
  | some job => tryClaim db job now

/-- `SyncJobService.mark_success`: no-op when the job id is unknown;
otherwise stamp the job row terminal-successful and mirror onto the owning
integration, advancing both `last_successful_sync_at` and `last_sync_at`. -/
def mark_success (db : Db) (job_id : Nat) (now : Nat) : Db :=
  match findJob db job_id with
  | none => db
  | some job =>
    { jobs := updateFirst (fun j => decide (j.id = job_id))
        (fun j => { j with
          status := JobStatus.success
          finished_at := some now
          last_error := none }) db.jobs,
      integrations := updateFirst (integrationKey job.user_id job.vendor)
        (fun i => { i with
          sync_status := "success"
          sync_job_id := some job.id
          last_successful_sync_at := some now
          last_sync_at := some now }) db.integrations }

/-- `SyncJobService.mark_failed`: no-op when the job id is unknown; otherwise
stamp the job row terminal-failed with the error text and mirror the status
onto the owning integration — `last_successful_sync_at` is not touched. -/
def mark_failed (db : Db) (job_id : Nat) (error : String) (now : Nat) : Db :=
  match findJob db job_id with
  | none => db
  | some job =>
    { jobs := updateFirst (fun j => decide (j.id = job_id))
        (fun j => { j with
          status := JobStatus.failed
          finished_at := some now
          last_error := some error }) db.jobs,
      integrations := updateFirst (integrationKey job.user_id job.vendor)
        (fun i => { i with sync_status := "failed", sync_job_id := some job.id })
        db.integrations }

/-- `SyncJobService.enqueue`: insert a fresh `queued` row (the database
assigns `new_id` and `created_at`) and point the owning integration at it. -/
def enqueue (db : Db) (user_id : Nat) (vendor trigger : String)
    (new_id created_at : Nat) : Db :=
  let job : SyncJob :=
    { id := new_id, created_at := created_at, user_id := user_id,
      vendor := vendor, trigger := trigger, status := JobStatus.queued,
      attempts := 0, started_at := none, finished_at := none,
      last_error := none }
  { jobs := db.jobs ++ [job],
    integrations := updateFirst (integrationKey user_id vendor)
      (fun i => { i with sync_status := "queued", sync_job_id := some new_id })
      db.integrations }

/-- The transitions the sync engine performs on the job database, as the
worker drives the service (`app/workers/sync_worker.py`):

* `enqueue_step` — the API layer or scheduler enqueues a job; the database
  assigns a primary key, so the new id is fresh;
* `claim_step` — a claim attempt's conditional update, run against the
  current state with an arbitrary previously selected job snapshot (this is
  where concurrent claimers race);
* `mark_success_step` / `mark_failed_step` — the worker records the outcome
  of the job it has just claimed and executed; a claimed job is `running`
  when marked (worker lines 96–104; the API layer never transitions job
  status). -/
inductive SysStep : Db → Db → Prop where
  | enqueue_step (db : Db) (uid : Nat) (v trig : String) (new_id cAt : Nat)
      (fresh : ∀ j ∈ db.jobs, j.id ≠ new_id) :
      SysStep db (enqueue db uid v trig new_id cAt)
  | claim_step (db : Db) (job : SyncJob) (now : Nat) :
      SysStep db (tryClaim db job now).2
  | mark_success_step (db : Db) (jid now : Nat)
      (h : jobStatus db jid = some JobStatus.running) :
      SysStep db (mark_success db jid now)
  | mark_failed_step (db : Db) (jid : Nat) (e : String) (now : Nat)
      (h : jobStatus db jid = some JobStatus.running) :
      SysStep db (mark_failed db jid e now)

/-- Reachability along engine transitions. -/
def SysReach : Db → Db → Prop := Relation.ReflTransGen SysStep

/-- Some job row carries the given id. -/
def HasId (db : Db) (jid : Nat) : Prop :=
  ∃ j ∈ db.jobs, j.id = jid

/-- No job row with the given id is `queued` (holds from the moment the job
is claimed onwards). -/
def NotQueuedWithId (db : Db) (jid : Nat) : Prop :=
  ∀ j ∈ db.jobs, j.id = jid → j.status ≠ JobStatus.queued

/-- Job ids are pairwise distinct (the `sync_jobs` primary key). -/
def UniqueJobIds (db : Db) : Prop :=
  db.jobs.Pairwise (fun a b => a.id ≠ b.id)

/-- The transitions the job state machine allows for one job id: unchanged,
created as `queued`, claimed `queued → running`, or finished
`running → success | failed`. -/
def allowedTransition (s s' : Option JobStatus) : Prop :=
  s' = s
  ∨ (s = none ∧ s' = some JobStatus.queued)
  ∨ (s = some JobStatus.queued ∧ s' = some JobStatus.running)
  ∨ (s = some JobStatus.running ∧
      (s' = some JobStatus.success ∨ s' = some JobStatus.failed))

/-! ## Outcome classification (C3)

The three buckets of the publisher's per-observation accounting, as read off
the branch structure of `postStep`. -/

/-- The outcome lands in the `created` bucket: an HTTP 201 response. -/
def isCreatedOutcome : PostOutcome → Bool
  | .status code _ => decide (code = 201)
  | _ => false

/-- The outcome lands in the `skipped` bucket: an HTTP 200 response. -/
def isSkippedOutcome : PostOutcome → Bool
  | .status code _ => decide (code = 200)
  | _ => false

/-- The diagnostic string the publisher appends for a failed outcome
(`none` for the created/skipped buckets). -/
def postDiagnostic : PostOutcome → Option String
  | .status code text =>
    if code = 201 then none
    else if code = 200 then none
    else some ("Failed to post observation: " ++ toString code ++ " - " ++ text)
  | .httpError m => some ("HTTP error posting observation: " ++ m)
  | .otherError m => some ("Error posting observation: " ++ m)

/-- The outcome lands in the `failed` bucket. -/
def isFailedOutcome (o : PostOutcome) : Bool :=
  (postDiagnostic o).isSome

/-- The DTO has the given observation type (used to slice a normalizer
output by dataset). -/
def hasObsType (ty : String) (o : NormalizedObservationDTO) : Bool :=
  decide (o.observation_type = ty)

/-- The heart-rate hour filter as a sample predicate: a time and a non-null
value are present and the hour is even (any minute). -/
def evenHourSample (dp : IntradaySample) : Bool :=
  match dp.time, dp.value with
  | some t, some _ => decide (t.hour % 2 = 0)
  | _, _ => false

/-! ## Concrete inputs used by witnesses and counterexamples -/

/-- Concrete one-day payload for the C1 witness: a single midnight
heart-rate sample on 2024-01-01. -/
def c1DayPayload : List (PDate × FitbitDayData) :=
  [(⟨2024, 1, 1⟩, { emptyFitbitDayData with
      heart_rate_intraday := [{ time := some ⟨0, 0, 0⟩, value := some 70 }] })]

/-- The DTO that concrete ingestion publishes. -/
def c1Dto : NormalizedObservationDTO :=
  { vendor := "fitbit", observation_type := "heart_rate",
    effective_datetime := ⟨1704067200, some 0⟩, value := 70,
    unit := "beats/min",
    vendor_source_id := "heart_rate:2024-01-01:00:00:00",
    additional_type := some "intraday" }

/-- C4 input: a day of 96 intraday samples at 15-minute granularity
(00:00:00, 00:15:00, …, 23:45:00), all with value 70. -/
def samples96 : List IntradaySample :=
  (List.range 96).map fun i =>
    { time := some ⟨15 * i / 60, 15 * i % 60, 0⟩, value := some 70 }

/-- The 96-sample day payload. -/
def hr96Data : FitbitDayData :=
  { emptyFitbitDayData with heart_rate_intraday := samples96 }

/-- C4 input: a single heart-rate sample at 00:15:00 — an even hour but not
a 2-hour boundary. -/
def hrQuarterData : FitbitDayData :=
  { emptyFitbitDayData with
    heart_rate_intraday := [{ time := some ⟨0, 15, 0⟩, value := some 70 }] }

/-- C5 counterexample input: a calories intraday dataset whose only (and
hence latest) non-null sample carries no time field. -/
def c5NoTimeData : FitbitDayData :=
  { emptyFitbitDayData with
    calories_intraday := [{ time := none, value := some 100 }] }

/-- C5 witness input: three calorie samples; the latest non-null one is at
09:00 with value 99 (the 10:00 sample is null). -/
def c5LatestData : FitbitDayData :=
  { emptyFitbitDayData with
    calories_intraday :=
      [{ time := some ⟨8, 0, 0⟩, value := some 50 },
       { time := some ⟨9, 0, 0⟩, value := some 99 },
       { time := some ⟨10, 0, 0⟩, value := none }] }

/-- Concrete database for the C8 witness: one running job (id 1) owned by
user 9's fitbit integration. -/
def c8Job : SyncJob :=
  { id := 1, created_at := 5, user_id := 9, vendor := "fitbit",
    trigger := "manual", status := JobStatus.running, attempts := 1,
    started_at := some 6, finished_at := none, last_error := none }

/-- The C8 witness integration row. -/
def c8Integ : VendorIntegration :=
  { user_id := 9, vendor := "fitbit", is_active := true,
    sync_status := "running", sync_job_id := some 1,
    last_successful_sync_at := some 3, last_sync_at := some 4 }

/-- The C8 witness database. -/
def c8Db : Db := { jobs := [c8Job], integrations := [c8Integ] }

/-- The C2 witness job: a single queued job with id 1. -/
def c2Job : SyncJob :=
  { id := 1, created_at := 0, user_id := 4, vendor := "fitbit",
    trigger := "manual", status := JobStatus.queued, attempts := 0,
    started_at := none, finished_at := none, last_error := none }

/-- The C2 witness database: one queued job, no integrations. -/
def c2Db : Db := { jobs := [c2Job], integrations := [] }

/-! # Theorems -/

/-- Normalizing to UTC does not move the instant: the wall reading of the
UTC view of a datetime (after UTC-localizing it when naive) is its denoted
instant. -/
theorem astimezone_utc_wall (d : PDateTime) :
    (astimezone 0 (utc_localize_if_naive d)).wall = d.instant := by
  cases h : d.offset <;>
    simp [astimezone, utc_localize_if_naive, tzLocalize, PDateTime.instant, h]

/-- UTC-localizing a naive datetime does not move the instant. -/
theorem instant_utc_localize (d : PDateTime) :
    (utc_localize_if_naive d).instant = d.instant := by
  cases h : d.offset <;>
    simp [utc_localize_if_naive, tzLocalize, PDateTime.instant, h]

/-- C9 — Dedupe-identifier timestamp determinism: `_dedupe_identifier`
treats a naive effective datetime as UTC and converts an aware one to UTC
before formatting, so any two datetimes denoting the same instant produce
the same identifier string for equal patient id, observation type and vendor
source id. -/
theorem dedupe_identifier_instant_deterministic
    (patient_id observation_type vendor_source_id : String)
    (d1 d2 : PDateTime) (h : d1.instant = d2.instant) :
    dedupe_identifier patient_id observation_type d1 vendor_source_id =
      dedupe_identifier patient_id observation_type d2 vendor_source_id := by
  have e1 : (astimezone 0 (if d1.offset = none then tzLocalize 0 d1 else d1)).wall
      = d1.instant := astimezone_utc_wall d1
  have e2 : (astimezone 0 (if d2.offset = none then tzLocalize 0 d2 else d2)).wall
      = d2.instant := astimezone_utc_wall d2
  simp only [dedupe_identifier, utc_localize_if_naive] at *
  rw [e1, e2, h]

/-- C9 witness: an aware Jakarta-offset reading and a naive UTC reading of
the same instant yield the same dedupe identifier. -/
theorem dedupe_identifier_instant_deterministic_witness :
    dedupe_identifier "p1" "heart_rate" ⟨1704067200 + 25200, some 25200⟩ "hr:x" =
      dedupe_identifier "p1" "heart_rate" ⟨1704067200, none⟩ "hr:x" :=
  dedupe_identifier_instant_deterministic "p1" "heart_rate" "hr:x"
    ⟨1704067200 + 25200, some 25200⟩ ⟨1704067200, none⟩ (by decide)

/-- C10 — Token encryption round-trip and empty-string passthrough: under a
cipher satisfying Fernet's contract (decryption inverts encryption, and a
Fernet token is never the empty string), `decrypt ∘ encrypt` is the identity
on non-empty strings; and for the empty string both wrapper methods return
`""` for every cipher, i.e. without consulting the cipher at all. -/
theorem token_encryption_roundtrip (c : FernetCipher)
    (hround : ∀ s : String, c.dec (c.enc s) = s)
    (hnonempty : ∀ s : String, s ≠ "" → c.enc s ≠ "") :
    (∀ s : String, s ≠ "" →
        TokenEncryption.decrypt c (TokenEncryption.encrypt c s) = s)
    ∧ (∀ c' : FernetCipher,
        TokenEncryption.encrypt c' "" = "" ∧ TokenEncryption.decrypt c' "" = "") := by
  constructor
  · intro s hs
    simp [TokenEncryption.encrypt, TokenEncryption.decrypt, hs,
      hnonempty s hs, hround s]
  · intro c'
    simp [TokenEncryption.encrypt, TokenEncryption.decrypt]

/-- C10 witness: the identity cipher satisfies the contract hypotheses on
non-empty strings, and a concrete token round-trips. -/
theorem token_encryption_roundtrip_witness :
    TokenEncryption.decrypt ⟨id, id⟩ (TokenEncryption.encrypt ⟨id, id⟩ "tok-123") =
      "tok-123" :=
  (token_encryption_roundtrip ⟨id, id⟩ (fun _ => rfl) (fun _ h => h)).1
    "tok-123" (by decide)

/-- C6 — the failing input: `_normalize_day` on any payload with an unknown
user time zone raises `pytz.UnknownTimeZoneError` from the unguarded
`pytz.timezone` call instead of falling back to UTC; normalization aborts
with no observations. -/
theorem normalize_day_unknown_timezone_raises :
    normalize_day emptyFitbitDayData ⟨2024, 1, 1⟩ "Invalid/Zone" 0 =
      Except.error "UnknownTimeZoneError: Invalid/Zone" := by
  rfl

/-- C1 — Watermark filtering: whenever `afterTimestamp` is provided, every
observation in the batch `ingest` passes to the publisher has an effective
instant strictly after it (the naive case being read as UTC, as the code
localizes); equivalently no observation with `effective_datetime <= T`
survives the filter. -/
theorem ingest_watermark_filtering (days : List (PDate × FitbitDayData))
    (user_timezone : String) (nowUtc : Int) (T : PDateTime)
    (batch : List NormalizedObservationDTO)
    (hok : ingest_published_batch days user_timezone nowUtc (some T) =
      Except.ok batch) :
    ∀ dto ∈ batch, ¬(dto.effective_datetime.instant ≤ T.instant) := by
  intro dto hmem
  rcases hcollect : ingest_collect days user_timezone nowUtc with e | normalized <;>
    rw [ingest_published_batch, hcollect] at hok
  · exact absurd hok (by simp)
  · simp only [Except.ok.injEq] at hok
    rw [← hok] at hmem
    simp only [ingest_filter, List.mem_filter, decide_eq_true_eq] at hmem
    rw [instant_utc_localize] at hmem
    omega

/-- C1 witness: a concrete one-day ingestion with the watermark at the epoch
keeps only the strictly newer observation. -/
theorem ingest_watermark_filtering_witness :
    ¬(c1Dto.effective_datetime.instant ≤ (⟨0, some 0⟩ : PDateTime).instant) := by
  exact ingest_watermark_filtering c1DayPayload "UTC" 0 ⟨0, some 0⟩ [c1Dto]
    (by rfl) c1Dto (List.mem_singleton.mpr rfl)

/-- Closed form of the publisher's fold: starting from any accumulator, the
loop adds the per-bucket counts of the batch and appends the batch's
diagnostics, touching nothing else. -/
theorem foldl_postStep_spec (respond : FhirObservation → PostOutcome)
    (l : List FhirObservation) (r0 : PostResult) :
    l.foldl (postStep respond) r0 =
      { total := r0.total,
        created := r0.created + (l.filter fun o => isCreatedOutcome (respond o)).length,
        skipped := r0.skipped + (l.filter fun o => isSkippedOutcome (respond o)).length,
        failed := r0.failed + (l.filter fun o => isFailedOutcome (respond o)).length,
        errors := r0.errors ++ l.filterMap fun o => postDiagnostic (respond o),
        success := r0.success } := by
  induction l generalizing r0 with
  | nil => simp
  | cons o l ih =>
    rw [List.foldl_cons, ih]
    cases h : respond o with
    | status code text =>
      by_cases h201 : code = 201
      · simp only [postStep, h, h201, if_true, isCreatedOutcome, isSkippedOutcome,
          isFailedOutcome, postDiagnostic, List.filter_cons, List.filterMap_cons]
        simp only [PostResult.mk.injEq]
        norm_num
        omega
      · by_cases h200 : code = 200
        · simp only [postStep, h, h201, h200, if_false, if_true, isCreatedOutcome,
            isSkippedOutcome, isFailedOutcome, postDiagnostic, List.filter_cons,
            List.filterMap_cons]
          simp only [PostResult.mk.injEq]
          norm_num
          omega
        · simp only [postStep, h, h201, h200, if_false, isCreatedOutcome,
            isSkippedOutcome, isFailedOutcome, postDiagnostic, List.filter_cons,
            List.filterMap_cons]
          simp only [PostResult.mk.injEq]
          norm_num
          omega
    | httpError m =>
      simp only [postStep, h, isCreatedOutcome, isSkippedOutcome, isFailedOutcome,
        postDiagnostic, List.filter_cons, List.filterMap_cons]
      simp only [PostResult.mk.injEq]
      norm_num
      omega
    | otherError m =>
      simp only [postStep, h, isCreatedOutcome, isSkippedOutcome, isFailedOutcome,
        postDiagnostic, List.filter_cons, List.filterMap_cons]
      simp only [PostResult.mk.injEq]
      norm_num
      omega

/-- The three buckets partition the batch. -/
theorem postOutcome_partition (respond : FhirObservation → PostOutcome)
    (l : List FhirObservation) :
    (l.filter fun o => isCreatedOutcome (respond o)).length
      + (l.filter fun o => isSkippedOutcome (respond o)).length
      + (l.filter fun o => isFailedOutcome (respond o)).length = l.length := by
  induction l with
  | nil => simp
  | cons o l ih =>
    have hone : (isCreatedOutcome (respond o)).toNat
        + (isSkippedOutcome (respond o)).toNat
        + (isFailedOutcome (respond o)).toNat = 1 := by
      cases h : respond o with
      | status code text =>
        by_cases h201 : code = 201
        · simp [isCreatedOutcome, isSkippedOutcome, isFailedOutcome,
            postDiagnostic, h201]
        · by_cases h200 : code = 200
          · simp [isCreatedOutcome, isSkippedOutcome, isFailedOutcome,
              postDiagnostic, h201, h200]
          · simp [isCreatedOutcome, isSkippedOutcome, isFailedOutcome,
              postDiagnostic, h201, h200]
      | httpError m =>
        simp [isCreatedOutcome, isSkippedOutcome, isFailedOutcome, postDiagnostic]
      | otherError m =>
        simp [isCreatedOutcome, isSkippedOutcome, isFailedOutcome, postDiagnostic]
    rcases hc : isCreatedOutcome (respond o) <;>
      rcases hs : isSkippedOutcome (respond o) <;>
        rcases hf : isFailedOutcome (respond o) <;>
          simp only [hc, hs, hf, Bool.toNat_true, Bool.toNat_false] at hone <;>
            simp [List.filter_cons, hc, hs, hf, List.length_cons] <;>
              omega

/-- A failed outcome is exactly one with a diagnostic. -/
theorem length_filterMap_diag (respond : FhirObservation → PostOutcome)
    (l : List FhirObservation) :
    (l.filterMap fun o => postDiagnostic (respond o)).length
      = (l.filter fun o => isFailedOutcome (respond o)).length := by
  induction l with
  | nil => simp
  | cons o l ih =>
    cases h : postDiagnostic (respond o) <;>
      simp [List.filterMap_cons, List.filter_cons, isFailedOutcome, h, ih]

/-- C3 — Publisher outcome accounting and non-blocking batch: every
observation of the batch is counted in exactly one of `created` (201
response), `skipped` (200 response) or `failed` (anything else, which also
appends one diagnostic string); the three counters sum to the batch size and
`errors` carries one entry per failure.  The final conjunct shows the loop
is compositional over batch concatenation: the observations after any prefix
— in particular after a failure — are still attempted and counted. -/
theorem post_observations_accounting
    (observations : List FhirObservation)
    (respond : FhirObservation → PostOutcome) :
    (post_observations_to_fhir observations respond).total = observations.length
    ∧ (post_observations_to_fhir observations respond).created
        = (observations.filter fun o => isCreatedOutcome (respond o)).length
    ∧ (post_observations_to_fhir observations respond).skipped
        = (observations.filter fun o => isSkippedOutcome (respond o)).length
    ∧ (post_observations_to_fhir observations respond).failed
        = (observations.filter fun o => isFailedOutcome (respond o)).length
    ∧ (post_observations_to_fhir observations respond).created
        + (post_observations_to_fhir observations respond).skipped
        + (post_observations_to_fhir observations respond).failed
        = observations.length
    ∧ (post_observations_to_fhir observations respond).errors.length
        = (post_observations_to_fhir observations respond).failed
    ∧ (∀ l1 l2 : List FhirObservation,
        (post_observations_to_fhir (l1 ++ l2) respond).created
            = (post_observations_to_fhir l1 respond).created
              + (post_observations_to_fhir l2 respond).created
        ∧ (post_observations_to_fhir (l1 ++ l2) respond).skipped
            = (post_observations_to_fhir l1 respond).skipped
              + (post_observations_to_fhir l2 respond).skipped
        ∧ (post_observations_to_fhir (l1 ++ l2) respond).failed
            = (post_observations_to_fhir l1 respond).failed
              + (post_observations_to_fhir l2 respond).failed
        ∧ (post_observations_to_fhir (l1 ++ l2) respond).errors
            = (post_observations_to_fhir l1 respond).errors
              ++ (post_observations_to_fhir l2 respond).errors) := by
  refine ⟨?_, ?_, ?_, ?_, ?_, ?_, ?_⟩
  · simp [post_observations_to_fhir, foldl_postStep_spec]
  · simp [post_observations_to_fhir, foldl_postStep_spec]
  · simp [post_observations_to_fhir, foldl_postStep_spec]
  · simp [post_observations_to_fhir, foldl_postStep_spec]
  · simp only [post_observations_to_fhir, foldl_postStep_spec]
    simpa using postOutcome_partition respond observations
  · simp only [post_observations_to_fhir, foldl_postStep_spec]
    simpa using length_filterMap_diag respond observations
  · intro l1 l2
    refine ⟨?_, ?_, ?_, ?_⟩ <;>
      simp [post_observations_to_fhir, foldl_postStep_spec, List.filter_append,
        List.filterMap_append]

/-- `create_observation` on a supported observation type with a known user
time zone and no identifier override succeeds, and the produced resource
carries the inputs (with a naive effective datetime read as UTC) and an
`issued` stamp of "now" in the user's zone. -/
theorem create_observation_ok (patient_id ty : String) (v : Int) (u : String)
    (eff : PDateTime) (ad : Option String) (tzs : String) (tz : Int)
    (nowUtc : Int) (htz : pytz_timezone tzs = .ok tz)
    (hsupp : ty ∈ LOINC_TYPES) :
    ∃ obs, create_observation patient_id ty v u eff ad tzs none nowUtc = .ok obs
      ∧ obs.patient_id = patient_id ∧ obs.observation_type = ty ∧ obs.value = v
      ∧ obs.unit = u ∧ obs.additional_type = ad
      ∧ obs.effective_datetime = utc_localize_if_naive eff
      ∧ obs.issued = pynow tz nowUtc := by
  rw [create_observation, if_pos hsupp, htz]
  exact ⟨_, rfl, rfl, rfl, rfl, rfl, rfl, rfl, rfl⟩

/-- The fallback loop never drops what it has already accumulated. -/
theorem mapHRFallbackLoop_acc_sub (patient_id tzs : String) (nowUtc : Int)
    (entries : List HeartSummaryEntry) (acc : List FhirObservation)
    (x : FhirObservation) (hx : x ∈ acc) :
    x ∈ mapHRFallbackLoop patient_id tzs nowUtc entries acc := by
  induction entries generalizing acc with
  | nil => simpa [mapHRFallbackLoop] using hx
  | cons e rest ih =>
    rw [mapHRFallbackLoop]
    rcases hr : e.restingHeartRate with _ | r <;>
      rcases hd : e.dateTime with _ | ds <;> dsimp only
    · exact ih acc hx
    · exact ih acc hx
    · exact ih acc hx
    · by_cases h0 : r = 0
      · rw [if_pos h0]
        exact ih acc hx
      · rw [if_neg h0]
        rcases htz : pytz_timezone tzs with e' | tz <;> dsimp only
        · exact hx
        · rcases hcr : create_observation patient_id "heart_rate" r "beats/min"
              (pynow tz nowUtc) (some "resting") tzs none nowUtc with e'' | obs <;>
            dsimp only
          · exact hx
          · exact ih (acc ++ [obs]) (List.mem_append_left _ hx)

/-- Every summary entry with a truthy resting heart rate and date yields an
observation in the fallback loop's result (given a known user time zone, so
no iteration aborts). -/
theorem mapHRFallbackLoop_mem (patient_id tzs : String) (tz nowUtc : Int)
    (htz : pytz_timezone tzs = .ok tz) (entries : List HeartSummaryEntry)
    (acc : List FhirObservation) (e : HeartSummaryEntry) (he : e ∈ entries)
    (r : Int) (hr : e.restingHeartRate = some r) (hr0 : r ≠ 0)
    (ds : PDate) (hds : e.dateTime = some ds) :
    ∃ obs ∈ mapHRFallbackLoop patient_id tzs nowUtc entries acc,
      obs.observation_type = "heart_rate" ∧ obs.additional_type = some "resting"
      ∧ obs.value = r ∧ obs.effective_datetime = pynow tz nowUtc := by
  induction entries generalizing acc with
  | nil => exact absurd he (List.not_mem_nil e)
  | cons x rest ih =>
    rcases List.mem_cons.mp he with rfl | hmem
    · rw [mapHRFallbackLoop, hr, hds]
      dsimp only
      rw [if_neg hr0, htz]
      dsimp only
      obtain ⟨obs, hcr, -, hty, hv, -, had, heff, -⟩ :=
        create_observation_ok patient_id "heart_rate" r "beats/min"
          (pynow tz nowUtc) (some "resting") tzs tz nowUtc htz (by decide)
      rw [hcr]
      refine ⟨obs, mapHRFallbackLoop_acc_sub _ _ _ _ _ _
        (List.mem_append_right _ (List.mem_singleton.mpr rfl)), hty, had, hv, ?_⟩
      rw [heff]
      simp [utc_localize_if_naive, pynow]
    · rw [mapHRFallbackLoop]
      rcases hrx : x.restingHeartRate with _ | rx <;>
        rcases hdx : x.dateTime with _ | dsx <;> dsimp only
      · exact ih acc hmem
      · exact ih acc hmem
      · exact ih acc hmem
      · by_cases h0 : rx = 0
        · rw [if_pos h0]
          exact ih acc hmem
        · rw [if_neg h0, htz]
          dsimp only
          obtain ⟨obs', hcr', -⟩ :=
            create_observation_ok patient_id "heart_rate" rx "beats/min"
              (pynow tz nowUtc) (some "resting") tzs tz nowUtc htz (by decide)
          rw [hcr']
          exact ih (acc ++ [obs']) hmem

/-- C7 — Heart-rate resting fallback: when the intraday heart-rate dataset
is absent or empty and a daily summary entry carries a (truthy) resting
heart rate and date, `map_fitbit_heart_rate` produces a heart-rate
observation from the resting summary, timestamped `datetime.now` in the
user's zone and tagged `type=resting`. -/
theorem map_fitbit_heart_rate_resting_fallback (patient_id : String)
    (d : HeartRateData) (last_sync : Option PDateTime) (tzs : String)
    (tz nowUtc : Int) (htz : pytz_timezone tzs = .ok tz)
    (hintraday : d.intraday_dataset = [])
    (e : HeartSummaryEntry) (he : e ∈ d.activities_heart)
    (r : Int) (hr : e.restingHeartRate = some r) (hr0 : r ≠ 0)
    (ds : PDate) (hds : e.dateTime = some ds) :
    ∃ obs ∈ map_fitbit_heart_rate patient_id d last_sync tzs nowUtc,
      obs.observation_type = "heart_rate" ∧ obs.additional_type = some "resting"
      ∧ obs.value = r ∧ obs.effective_datetime = pynow tz nowUtc := by
  rw [map_fitbit_heart_rate, if_neg (by simp [hintraday])]
  exact mapHRFallbackLoop_mem patient_id tzs tz nowUtc htz d.activities_heart []
    e he r hr hr0 ds hds

/-- C7 witness: a day with no intraday samples and a resting summary of 62
on 2024-01-02 yields a resting-tagged heart-rate observation. -/
theorem map_fitbit_heart_rate_resting_fallback_witness :
    ∃ obs ∈ map_fitbit_heart_rate "p"
        ⟨[], [⟨some ⟨2024, 1, 2⟩, some 62⟩]⟩ none "UTC" 0,
      obs.observation_type = "heart_rate" ∧ obs.additional_type = some "resting"
      ∧ obs.value = 62 ∧ obs.effective_datetime = pynow 0 0 :=
  map_fitbit_heart_rate_resting_fallback "p"
    ⟨[], [⟨some ⟨2024, 1, 2⟩, some 62⟩]⟩ none "UTC" 0 0 rfl rfl
    ⟨some ⟨2024, 1, 2⟩, some 62⟩ (List.mem_singleton.mpr rfl)
    62 rfl (by decide) ⟨2024, 1, 2⟩ rfl

/-- A `filterMap` segment all of whose outputs have observation type `ty`
contributes nothing when the normalizer output is sliced by a different
type. -/
theorem filter_type_filterMap_nil {α : Type} (l : List α)
    (f : α → Option NormalizedObservationDTO) (ty ty' : String) (hne : ty ≠ ty')
    (hf : ∀ a o, f a = some o → o.observation_type = ty) :
    (l.filterMap f).filter (hasObsType ty') = [] := by
  refine List.filter_eq_nil_iff.mpr ?_
  intro o ho
  obtain ⟨a, -, hao⟩ := List.mem_filterMap.mp ho
  simpa [hasObsType, hf a o hao] using hne

/-- Every output of the normalizer's heart-rate section has observation
type `heart_rate`, comes from a sample with a time and a non-null value at
an even hour, and carries that sample's value and the
`heart_rate:{date}:{time}` source id. -/
theorem hrSampleObs_spec (day : PDate) (tz : Int)
    (dp : IntradaySample) (o : NormalizedObservationDTO)
    (hao : hrSampleObs day tz dp = some o) :
    ∃ t v, dp.time = some t ∧ dp.value = some v ∧ t.hour % 2 = 0
      ∧ o = { vendor := "fitbit", observation_type := "heart_rate",
              effective_datetime := tzLocalize tz (dtOfDayTime day t),
              value := v, unit := "beats/min",
              vendor_source_id := "heart_rate:" ++ day.iso ++ ":" ++ t.iso,
              additional_type := some "intraday" } := by
  rw [hrSampleObs] at hao
  rcases ht : dp.time with _ | t <;> rcases hv : dp.value with _ | v <;>
    rw [ht, hv] at hao
  · exact absurd hao (by simp)
  · exact absurd hao (by simp)
  · exact absurd hao (by simp)
  · dsimp only at hao
    by_cases hodd : t.hour % 2 ≠ 0
    · rw [if_pos hodd] at hao
      exact absurd hao (by simp)
    · rw [if_neg hodd] at hao
      obtain rfl := Option.some_injective _ hao
      exact ⟨t, v, rfl, rfl, by omega, rfl⟩

/-- Every output of the normalizer's heart-rate section has observation
type `heart_rate`. -/
theorem hrSampleObs_type (day : PDate) (tz : Int)
    (dp : IntradaySample) (o : NormalizedObservationDTO)
    (hao : hrSampleObs day tz dp = some o) :
    o.observation_type = "heart_rate" := by
  obtain ⟨t, v, -, -, -, rfl⟩ := hrSampleObs_spec day tz dp o hao
  rfl

/-- Every output of the normalizer's weight section has observation type
`body_weight`. -/
theorem weightLogObs_type (day : PDate) (tz : Int) (nowUtc : Int)
    (lg : WeightLog) (o : NormalizedObservationDTO)
    (hao : weightLogObs day tz nowUtc lg = some o) :
    o.observation_type = "body_weight" := by
  rw [weightLogObs] at hao
  rcases hw : lg.weight with _ | w <;> rw [hw] at hao
  · exact absurd hao (by simp)
  · obtain rfl := Option.some_injective _ hao
    rfl

/-- C5 counterexample: the claim fails as stated — a calories intraday
dataset with one non-null sample (which lacks a time field) produces zero
calories observations, not exactly one. -/
theorem calories_latest_no_time_counterexample :
    (c5NoTimeData.calories_intraday.filter (fun dp => dp.value.isSome)).length = 1
    ∧ (normalize_day c5NoTimeData ⟨2024, 1, 1⟩ "UTC" 0).map
        (fun l => (l.filter (hasObsType "calories")).length) = .ok 0
    ∧ (0 : Nat) ≠ 1 := by
  refine ⟨by rfl, by rfl, by decide⟩

/-- C5 (amended) — Calorie daily-latest policy: when the latest non-null
calories sample of the day also carries a time, the normalizer produces
exactly one calories observation — with that sample's value and source id
`calories:{date}` — and when the dataset has no non-null sample it produces
none.  (The amendment: if the latest non-null sample carries no time, the
code produces no calories observation even though non-null samples exist.) -/
theorem calories_daily_latest (data : FitbitDayData) (day : PDate)
    (user_timezone : String) (tz : Int) (nowUtc : Int)
    (huser : userTz user_timezone = .ok tz) :
    (∀ dp t v,
      data.calories_intraday.reverse.find? (fun s => s.value.isSome) = some dp →
      dp.time = some t → dp.value = some v →
      (normalize_day data day user_timezone nowUtc).map
          (fun l => l.filter (hasObsType "calories"))
        = .ok [{ vendor := "fitbit", observation_type := "calories",
                 effective_datetime := tzLocalize tz (dtOfDayTime day t),
                 value := v, unit := "kcal",
                 vendor_source_id := "calories:" ++ day.iso,
                 additional_type := some "daily_latest" }])
    ∧ ((∀ dp ∈ data.calories_intraday, dp.value = none) →
      (normalize_day data day user_timezone nowUtc).map
          (fun l => l.filter (hasObsType "calories")) = .ok []) := by
  constructor
  · intro dp t v hfind ht hv
    rw [normalize_day, huser]
    dsimp only
    rw [caloriesSectionObs, hfind]
    dsimp only
    rw [ht, hv]
    dsimp only
    simp only [Except.map, Except.ok.injEq]
    rw [List.filter_append, List.filter_append, List.filter_append]
    rw [filter_type_filterMap_nil _ _ "heart_rate" "calories" (by decide)
      (fun a o hao => hrSampleObs_type day tz a o hao)]
    rw [filter_type_filterMap_nil _ _ "body_weight" "calories" (by decide)
      (fun a o hao => weightLogObs_type day tz nowUtc a o hao)]
    rcases data.spo2_avg with _ | avg <;>
      simp [hasObsType, spo2SectionObs, List.filter_cons]
  · intro hnone
    have hfind : data.calories_intraday.reverse.find?
        (fun s => s.value.isSome) = none := by
      refine List.find?_eq_none.mpr ?_
      intro x hx
      simp [hnone x (List.mem_reverse.mp hx)]
    rw [normalize_day, huser]
    dsimp only
    rw [caloriesSectionObs, hfind]
    dsimp only
    simp only [Except.map, Except.ok.injEq]
    rw [List.filter_append, List.filter_append, List.filter_append]
    rw [filter_type_filterMap_nil _ _ "heart_rate" "calories" (by decide)
      (fun a o hao => hrSampleObs_type day tz a o hao)]
    rw [filter_type_filterMap_nil _ _ "body_weight" "calories" (by decide)
      (fun a o hao => weightLogObs_type day tz nowUtc a o hao)]
    rcases data.spo2_avg with _ | avg <;>
      simp [hasObsType, spo2SectionObs, List.filter_cons]

/-- A `filterMap` keeps as many elements as its function is defined on. -/
theorem length_filterMap_isSome {α β : Type} (f : α → Option β) (l : List α) :
    (l.filterMap f).length = (l.filter fun a => (f a).isSome).length := by
  induction l with
  | nil => rfl
  | cons x l ih =>
    cases h : f x <;> simp [List.filterMap_cons, List.filter_cons, h, ih]

/-- The heart-rate section emits an observation exactly for the samples the
even-hour predicate accepts. -/
theorem hrSampleObs_isSome (day : PDate) (tz : Int) (dp : IntradaySample) :
    (hrSampleObs day tz dp).isSome = evenHourSample dp := by
  rw [hrSampleObs, evenHourSample]
  rcases ht : dp.time with _ | t <;> rcases hv : dp.value with _ | v
  · rfl
  · rfl
  · rfl
  · dsimp only
    by_cases h : t.hour % 2 = 0 <;> simp [h]

/-- The calories section contributes nothing when the output is sliced by
another observation type. -/
theorem caloriesSectionObs_filter_ne (day : PDate) (tz : Int)
    (dataset : List IntradaySample) (ty : String) (hne : ty ≠ "calories") :
    (caloriesSectionObs day tz dataset).filter (hasObsType ty) = [] := by
  rcases hf : dataset.reverse.find? (fun dp => dp.value.isSome) with _ | latest
  · rw [caloriesSectionObs, hf]
    rfl
  · rw [caloriesSectionObs, hf]
    dsimp only
    rcases ht : latest.time with _ | t <;> rcases hv : latest.value with _ | v
    · rfl
    · rfl
    · rfl
    · dsimp only
      simp [hasObsType, Ne.symm hne]

/-- The SpO2 section contributes nothing when the output is sliced by
another observation type. -/
theorem spo2SectionObs_filter_ne (day : PDate) (tz nowUtc : Int)
    (avg? : Option Int) (ty : String) (hne : ty ≠ "spo2") :
    (spo2SectionObs day tz nowUtc avg?).filter (hasObsType ty) = [] := by
  rcases avg? with _ | a <;> simp [spo2SectionObs, hasObsType, Ne.symm hne]

/-- Slicing the heart-rate section by its own type keeps it whole. -/
theorem hrSection_filter_self (day : PDate) (tz : Int)
    (l : List IntradaySample) :
    (l.filterMap (hrSampleObs day tz)).filter (hasObsType "heart_rate")
      = l.filterMap (hrSampleObs day tz) := by
  refine List.filter_eq_self.mpr ?_
  intro o ho
  obtain ⟨a, -, hao⟩ := List.mem_filterMap.mp ho
  simp [hasObsType, hrSampleObs_type day tz a o hao]

/-- A DTO of type `ty` cannot sit in a list whose `ty`-slice is empty. -/
theorem not_mem_of_filter_type_nil {l : List NormalizedObservationDTO}
    {ty : String} (hfil : l.filter (hasObsType ty) = [])
    (o : NormalizedObservationDTO) (ho : o ∈ l)
    (hty : o.observation_type = ty) : False := by
  have hmem : o ∈ l.filter (hasObsType ty) :=
    List.mem_filter.mpr ⟨ho, by simp [hasObsType, hty]⟩
  rw [hfil] at hmem
  exact absurd hmem (List.not_mem_nil o)

/-- C4 counterexample: the claim fails as stated — on a day of 96
15-minute samples the normalizer keeps 48, not 12, and a sample at 00:15:00
(an even hour but not a 2-hour boundary) is kept. -/
theorem heart_rate_sampling_counterexample :
    samples96.length = 96
    ∧ (normalize_day hr96Data ⟨2024, 1, 1⟩ "UTC" 0).map List.length = .ok 48
    ∧ (48 : Nat) ≠ 12
    ∧ (normalize_day hrQuarterData ⟨2024, 1, 1⟩ "UTC" 0).map
        (fun l => l.map fun o => o.vendor_source_id)
      = .ok ["heart_rate:2024-01-01:00:15:00"] :=
  ⟨rfl, rfl, by decide, rfl⟩

/-- C4 (amended) — Heart-rate even-hour sampling: the normalizer keeps
exactly the intraday samples that carry a time and a non-null value and
whose hour is even (00, 02, …, 22) — regardless of the minute — each kept
sample yielding a heart-rate observation with source id
`heart_rate:{date}:{time}` and the sample's value.  (The amendment: the
filter is on even hours only, so of 96 15-minute samples 48 pass, not 12,
and non-boundary times like 00:15 pass.) -/
theorem heart_rate_even_hour_sampling (data : FitbitDayData) (day : PDate)
    (user_timezone : String) (tz nowUtc : Int)
    (huser : userTz user_timezone = .ok tz) :
    ((normalize_day data day user_timezone nowUtc).map
        (fun l => (l.filter (hasObsType "heart_rate")).length)
      = .ok (data.heart_rate_intraday.filter evenHourSample).length)
    ∧ (∀ out, normalize_day data day user_timezone nowUtc = .ok out →
        ∀ o ∈ out, o.observation_type = "heart_rate" →
          ∃ dp ∈ data.heart_rate_intraday, ∃ t v, dp.time = some t
            ∧ dp.value = some v ∧ t.hour % 2 = 0
            ∧ o.vendor_source_id = "heart_rate:" ++ day.iso ++ ":" ++ t.iso
            ∧ o.value = v) := by
  constructor
  · rw [normalize_day, huser]
    dsimp only
    simp only [Except.map, Except.ok.injEq]
    rw [List.filter_append, List.filter_append, List.filter_append]
    rw [hrSection_filter_self, spo2SectionObs_filter_ne _ _ _ _ _ (by decide),
      filter_type_filterMap_nil _ _ "body_weight" "heart_rate" (by decide)
        (fun a o hao => weightLogObs_type day tz nowUtc a o hao),
      caloriesSectionObs_filter_ne _ _ _ _ (by decide)]
    rw [List.append_nil, List.append_nil, List.append_nil]
    rw [length_filterMap_isSome]
    rw [List.filter_congr (fun dp _ => hrSampleObs_isSome day tz dp)]
  · intro out hok o ho hty
    rw [normalize_day, huser] at hok
    dsimp only at hok
    injection hok with hok
    rw [← hok] at ho
    rcases List.mem_append.mp ho with ho' | hcal
    rcases List.mem_append.mp ho' with ho'' | hw
    rcases List.mem_append.mp ho'' with hhr | hspo2
    · obtain ⟨dp, hdp, hao⟩ := List.mem_filterMap.mp hhr
      obtain ⟨t, v, ht, hv, hodd, rfl⟩ := hrSampleObs_spec day tz dp o hao
      exact ⟨dp, hdp, t, v, ht, hv, hodd, rfl, rfl⟩
    · exact absurd hty (by
        intro _
        exact not_mem_of_filter_type_nil
          (spo2SectionObs_filter_ne day tz nowUtc data.spo2_avg "heart_rate"
            (by decide)) o hspo2 hty)
    · exact absurd hty (by
        intro _
        exact not_mem_of_filter_type_nil
          (filter_type_filterMap_nil data.weight_logs _ "body_weight"
            "heart_rate" (by decide)
            (fun a o' hao => weightLogObs_type day tz nowUtc a o' hao))
          o hw hty)
    · exact absurd hty (by
        intro _
        exact not_mem_of_filter_type_nil
          (caloriesSectionObs_filter_ne day tz data.calories_intraday
            "heart_rate" (by decide)) o hcal hty)

/-- C4 witness: on the 96-sample day the heart-rate slice of the normalizer
output has exactly 48 observations. -/
theorem heart_rate_even_hour_sampling_witness :
    (normalize_day hr96Data ⟨2024, 1, 1⟩ "UTC" 0).map
        (fun l => (l.filter (hasObsType "heart_rate")).length) = .ok 48 := by
  rw [(heart_rate_even_hour_sampling hr96Data ⟨2024, 1, 1⟩ "UTC" 0 0 rfl).1]
  rfl

/-- C5 witness: on the three-sample dataset the normalizer emits exactly the
09:00 sample's value 99 under source id `calories:2024-01-01`. -/
theorem calories_daily_latest_witness :
    (normalize_day c5LatestData ⟨2024, 1, 1⟩ "UTC" 0).map
        (fun l => l.filter (hasObsType "calories"))
      = .ok [{ vendor := "fitbit", observation_type := "calories",
               effective_datetime := tzLocalize 0 (dtOfDayTime ⟨2024, 1, 1⟩ ⟨9, 0, 0⟩),
               value := 99, unit := "kcal",
               vendor_source_id := "calories:" ++ (⟨2024, 1, 1⟩ : PDate).iso,
               additional_type := some "daily_latest" }] :=
  (calories_daily_latest c5LatestData ⟨2024, 1, 1⟩ "UTC" 0 0 rfl).1
    { time := some ⟨9, 0, 0⟩, value := some 99 } ⟨9, 0, 0⟩ 99
    (by rfl) rfl rfl

/-- Updating the first `p`-satisfying element maps the `find? p` result when
the update does not change `p`-membership. -/
theorem find?_updateFirst_self {α : Type} (p : α → Bool) (f : α → α)
    (l : List α) (hpf : ∀ a, p (f a) = p a) :
    (updateFirst p f l).find? p = (l.find? p).map f := by
  induction l with
  | nil => rfl
  | cons a as ih =>
    by_cases h : p a = true
    · rw [updateFirst, if_pos h, List.find?_cons_of_pos _ (by rw [hpf]; exact h),
        List.find?_cons_of_pos _ h]
      rfl
    · rw [updateFirst, if_neg h, List.find?_cons_of_neg _ h,
        List.find?_cons_of_neg _ h, ih]

/-- Elements not matched by the update predicate survive `updateFirst`
unchanged. -/
theorem mem_updateFirst_of_neg {α : Type} {p : α → Bool} {f : α → α}
    {l : List α} {b : α} (hb : b ∈ l) (h : p b = false) :
    b ∈ updateFirst p f l := by
  induction l with
  | nil => exact absurd hb (List.not_mem_nil b)
  | cons a as ih =>
    rcases List.mem_cons.mp hb with rfl | hmem
    · rw [updateFirst, if_neg (by simp [h])]
      exact List.mem_cons_self _ _
    · rw [updateFirst]
      by_cases ha : p a = true
      · rw [if_pos ha]
        exact List.mem_cons_of_mem _ hmem
      · rw [if_neg ha]
        exact List.mem_cons_of_mem _ (ih hmem)

/-- C8 — Terminal-transition effects and frame: for an existing job,
`mark_success` stamps the job row `success`/`finishedAt=now`/no error and
mirrors success onto the owning integration, advancing
`last_successful_sync_at` (and `last_sync_at`) to now; `mark_failed` stamps
the job row `failed`/`finishedAt=now` with the error and mirrors the failed
status and job pointer onto the integration while leaving its
`last_successful_sync_at` exactly as it was (the watermark advances on
success only); all other job rows and integrations are untouched. -/
theorem mark_terminal_effects (db : Db) (jid : Nat) (now : Nat) (err : String)
    (job : SyncJob) (hfind : findJob db jid = some job)
    (integ : VendorIntegration)
    (hi : db.integrations.find? (integrationKey job.user_id job.vendor)
      = some integ) :
    (findJob (mark_success db jid now) jid
      = some { job with
          status := JobStatus.success
          finished_at := some now
          last_error := none })
    ∧ ((mark_success db jid now).integrations.find?
          (integrationKey job.user_id job.vendor)
      = some { integ with
          sync_status := "success"
          sync_job_id := some job.id
          last_successful_sync_at := some now
          last_sync_at := some now })
    ∧ (findJob (mark_failed db jid err now) jid
      = some { job with
          status := JobStatus.failed
          finished_at := some now
          last_error := some err })
    ∧ ((mark_failed db jid err now).integrations.find?
          (integrationKey job.user_id job.vendor)
      = some { integ with sync_status := "failed", sync_job_id := some job.id })
    ∧ (((mark_failed db jid err now).integrations.find?
          (integrationKey job.user_id job.vendor)).map
            (fun i => i.last_successful_sync_at)
      = some integ.last_successful_sync_at)
    ∧ (∀ j ∈ db.jobs, j.id ≠ jid →
        j ∈ (mark_success db jid now).jobs ∧ j ∈ (mark_failed db jid err now).jobs)
    ∧ (∀ i ∈ db.integrations, integrationKey job.user_id job.vendor i = false →
        i ∈ (mark_success db jid now).integrations
        ∧ i ∈ (mark_failed db jid err now).integrations) := by
  have hfindJ : db.jobs.find? (fun j => decide (j.id = jid)) = some job := hfind
  have hsucc : findJob (mark_success db jid now) jid
      = some { job with
          status := JobStatus.success
          finished_at := some now
          last_error := none } := by
    have hupd := find?_updateFirst_self (fun j => decide (j.id = jid))
      (fun j => { j with
        status := JobStatus.success
        finished_at := some now
        last_error := none }) db.jobs (fun a => rfl)
    rw [mark_success, hfind]
    simp only [findJob]
    rw [hupd, hfindJ]
    rfl
  have hsucci : (mark_success db jid now).integrations.find?
      (integrationKey job.user_id job.vendor)
      = some { integ with
          sync_status := "success"
          sync_job_id := some job.id
          last_successful_sync_at := some now
          last_sync_at := some now } := by
    have hupd := find?_updateFirst_self (integrationKey job.user_id job.vendor)
      (fun i => { i with
        sync_status := "success"
        sync_job_id := some job.id
        last_successful_sync_at := some now
        last_sync_at := some now }) db.integrations (fun a => rfl)
    rw [mark_success, hfind]
    simp only []
    rw [hupd, hi]
    rfl
  have hfail : findJob (mark_failed db jid err now) jid
      = some { job with
          status := JobStatus.failed
          finished_at := some now
          last_error := some err } := by
    have hupd := find?_updateFirst_self (fun j => decide (j.id = jid))
      (fun j => { j with
        status := JobStatus.failed
        finished_at := some now
        last_error := some err }) db.jobs (fun a => rfl)
    rw [mark_failed, hfind]
    simp only [findJob]
    rw [hupd, hfindJ]
    rfl
  have hfaili : (mark_failed db jid err now).integrations.find?
      (integrationKey job.user_id job.vendor)
      = some { integ with sync_status := "failed", sync_job_id := some job.id } := by
    have hupd := find?_updateFirst_self (integrationKey job.user_id job.vendor)
      (fun i => { i with sync_status := "failed", sync_job_id := some job.id })
      db.integrations (fun a => rfl)
    rw [mark_failed, hfind]
    simp only []
    rw [hupd, hi]
    rfl
  refine ⟨hsucc, hsucci, hfail, hfaili, ?_, ?_, ?_⟩
  · rw [hfaili]
    rfl
  · intro j hj hne
    constructor
    · rw [mark_success, hfind]
      exact mem_updateFirst_of_neg hj (by simp [hne])
    · rw [mark_failed, hfind]
      exact mem_updateFirst_of_neg hj (by simp [hne])
  · intro i hi' hkey
    constructor
    · rw [mark_success, hfind]
      exact mem_updateFirst_of_neg hi' hkey
    · rw [mark_failed, hfind]
      exact mem_updateFirst_of_neg hi' hkey

/-- C8 witness: marking the concrete job failed keeps the integration's
`last_successful_sync_at` at its old value. -/
theorem mark_terminal_effects_witness :
    ((mark_failed c8Db 1 "boom" 7).integrations.find?
        (integrationKey c8Job.user_id c8Job.vendor)).map
      (fun i => i.last_successful_sync_at) = some (some 3) :=
  (mark_terminal_effects c8Db 1 7 "boom" c8Job (by rfl) c8Integ
    (by rfl)).2.2.2.2.1

/-! ## C2: list-level lemmas for the job queue -/

/-- `find?` distributes over append. -/
theorem find?_append {α : Type} (p : α → Bool) (l1 l2 : List α) :
    (l1 ++ l2).find? p = ((l1.find? p).orElse fun _ => l2.find? p) := by
  induction l1 with
  | nil => rfl
  | cons a l1 ih =>
    by_cases h : p a = true
    · rw [List.cons_append, List.find?_cons_of_pos _ h,
        List.find?_cons_of_pos _ h]
      rfl
    · rw [List.cons_append, List.find?_cons_of_neg _ h,
        List.find?_cons_of_neg _ h, ih]

/-- `find?` commutes with a map that does not change the predicate. -/
theorem find?_map_comm {α : Type} (p : α → Bool) (g : α → α) (l : List α)
    (hpg : ∀ a, p (g a) = p a) :
    (l.map g).find? p = (l.find? p).map g := by
  induction l with
  | nil => rfl
  | cons a l ih =>
    by_cases h : p a = true
    · rw [List.map_cons, List.find?_cons_of_pos _ (by rw [hpg]; exact h),
        List.find?_cons_of_pos _ h]
      rfl
    · rw [List.map_cons, List.find?_cons_of_neg _ (by rw [hpg]; exact h),
        List.find?_cons_of_neg _ h, ih]

/-- `find?` for a predicate disjoint from the update predicate ignores
`updateFirst` (given the update also preserves the searched predicate). -/
theorem find?_updateFirst_other {α : Type} (p' p : α → Bool) (f : α → α)
    (l : List α) (hdisj : ∀ a, p' a = true → p a = false)
    (hpf : ∀ a, p (f a) = p a) :
    (updateFirst p' f l).find? p = l.find? p := by
  induction l with
  | nil => rfl
  | cons a l ih =>
    by_cases h' : p' a = true
    · rw [updateFirst, if_pos h']
      rw [List.find?_cons_of_neg _ (by rw [hpf]; simp [hdisj a h']),
        List.find?_cons_of_neg _ (by simp [hdisj a h'])]
    · rw [updateFirst, if_neg h']
      by_cases h : p a = true
      · rw [List.find?_cons_of_pos _ h, List.find?_cons_of_pos _ h]
      · rw [List.find?_cons_of_neg _ h, List.find?_cons_of_neg _ h, ih]

/-- Every element of `updateFirst p f l` is an original element or the
image of a matched original element. -/
theorem mem_updateFirst_cases {α : Type} {p : α → Bool} {f : α → α}
    {l : List α} {b : α} (hb : b ∈ updateFirst p f l) :
    b ∈ l ∨ ∃ a ∈ l, p a = true ∧ b = f a := by
  induction l with
  | nil => exact absurd hb (List.not_mem_nil b)
  | cons a l ih =>
    rw [updateFirst] at hb
    by_cases h : p a = true
    · rw [if_pos h] at hb
      rcases List.mem_cons.mp hb with rfl | hmem
      · exact .inr ⟨a, List.mem_cons_self _ _, h, rfl⟩
      · exact .inl (List.mem_cons_of_mem _ hmem)
    · rw [if_neg h] at hb
      rcases List.mem_cons.mp hb with rfl | hmem
      · exact .inl (List.mem_cons_self _ _)
      · rcases ih hmem with hl | ⟨x, hx, hpx, rfl⟩
        · exact .inl (List.mem_cons_of_mem _ hl)
        · exact .inr ⟨x, List.mem_cons_of_mem _ hx, hpx, rfl⟩

/-- Every original element survives `updateFirst` either unchanged or as
its image. -/
theorem updateFirst_mem_or {α : Type} (p : α → Bool) (f : α → α)
    (l : List α) (a : α) (ha : a ∈ l) :
    a ∈ updateFirst p f l ∨ f a ∈ updateFirst p f l := by
  induction l with
  | nil => exact absurd ha (List.not_mem_nil a)
  | cons x l ih =>
    rw [updateFirst]
    rcases List.mem_cons.mp ha with rfl | hmem
    · by_cases h : p a = true
      · rw [if_pos h]
        exact .inr (List.mem_cons_self _ _)
      · rw [if_neg h]
        exact .inl (List.mem_cons_self _ _)
    · by_cases h : p x = true
      · rw [if_pos h]
        exact .inl (List.mem_cons_of_mem _ hmem)
      · rw [if_neg h]
        rcases ih hmem with hl | hr
        · exact .inl (List.mem_cons_of_mem _ hl)
        · exact .inr (List.mem_cons_of_mem _ hr)

/-- With pairwise-distinct ids, `find?` by a member's id returns exactly
that member. -/
theorem find?_id_of_unique (l : List SyncJob)
    (hu : l.Pairwise (fun a b => a.id ≠ b.id)) (job : SyncJob)
    (hmem : job ∈ l) :
    l.find? (fun j => decide (j.id = job.id)) = some job := by
  induction l with
  | nil => exact absurd hmem (List.not_mem_nil job)
  | cons a l ih =>
    rcases List.mem_cons.mp hmem with rfl | hmem'
    · exact List.find?_cons_of_pos _ (by simp)
    · have hne : a.id ≠ job.id := (List.pairwise_cons.mp hu).1 job hmem'
      rw [List.find?_cons_of_neg _ (by simpa using hne)]
      exact ih (List.pairwise_cons.mp hu).2 hmem'

/-- The scan underlying `argminCreated`: its result is the seed or a list
element and is minimal among both. -/
theorem argminStep_foldl_spec (l : List SyncJob) :
    ∀ (a b : SyncJob), l.foldl argminStep (some a) = some b →
      (b = a ∨ b ∈ l) ∧ b.created_at ≤ a.created_at
        ∧ ∀ k ∈ l, b.created_at ≤ k.created_at := by
  induction l with
  | nil =>
    intro a b h
    rw [List.foldl_nil] at h
    obtain rfl := Option.some_injective _ h
    exact ⟨.inl rfl, le_refl _, by simp⟩
  | cons x l ih =>
    intro a b h
    rw [List.foldl_cons, argminStep] at h
    by_cases hlt : x.created_at < a.created_at
    · rw [if_pos hlt] at h
      obtain ⟨hmem, hle, hall⟩ := ih x b h
      refine ⟨?_, hle.trans hlt.le, ?_⟩
      · rcases hmem with rfl | hm
        · exact .inr (List.mem_cons_self _ _)
        · exact .inr (List.mem_cons_of_mem _ hm)
      · intro k hk
        rcases List.mem_cons.mp hk with rfl | hk'
        · exact hle
        · exact hall k hk'
    · rw [if_neg hlt] at h
      obtain ⟨hmem, hle, hall⟩ := ih a b h
      refine ⟨?_, hle, ?_⟩
      · rcases hmem with rfl | hm
        · exact .inl rfl
        · exact .inr (List.mem_cons_of_mem _ hm)
      · intro k hk
        rcases List.mem_cons.mp hk with rfl | hk'
        · exact hle.trans (Nat.le_of_not_lt hlt)
        · exact hall k hk'

/-- `argminCreated` returns a member of minimal `created_at`. -/
theorem argminCreated_spec (l : List SyncJob) (b : SyncJob)
    (h : argminCreated l = some b) :
    b ∈ l ∧ ∀ k ∈ l, b.created_at ≤ k.created_at := by
  cases l with
  | nil => exact absurd h (by simp [argminCreated])
  | cons x l =>
    rw [argminCreated, List.foldl_cons] at h
    obtain ⟨hmem, hle, hall⟩ := argminStep_foldl_spec l x b h
    refine ⟨?_, ?_⟩
    · rcases hmem with rfl | hm
      · exact List.mem_cons_self _ _
      · exact List.mem_cons_of_mem _ hm
    · intro k hk
      rcases List.mem_cons.mp hk with rfl | hk'
      · exact hle
      · exact hall k hk'

/-- The select phase returns a queued row of minimal creation order. -/
theorem selectOldestQueued_spec (jobs : List SyncJob) (j : SyncJob)
    (h : selectOldestQueued jobs = some j) :
    j ∈ jobs ∧ j.status = JobStatus.queued
      ∧ ∀ k ∈ jobs, k.status = JobStatus.queued →
          j.created_at ≤ k.created_at := by
  obtain ⟨hm, hmin⟩ := argminCreated_spec _ _ h
  obtain ⟨hmem, hq⟩ := List.mem_filter.mp hm
  refine ⟨hmem, by simpa using hq, ?_⟩
  intro k hk hkq
  exact hmin k (List.mem_filter.mpr ⟨hk, by simp [hkq]⟩)

/-- A claim attempt whose conditional update affects a row count other than
one rolls back and returns no job. -/
theorem tryClaim_zero_rows (db : Db) (job : SyncJob) (now : Nat)
    (h : (db.jobs.filter (claimMatches job)).length ≠ 1) :
    tryClaim db job now = (none, db) := by
  rw [tryClaim]
  rw [if_pos h]

/-- The job rows of the post-claim session state. -/
theorem claimedDb_jobs (db : Db) (job : SyncJob) (now : Nat) :
    (claimedDb db job now).jobs = db.jobs.map (claimUpdateRow job now) :=
  rfl

/-- The shape of a claim attempt whose conditional update affects exactly
one row. -/
theorem tryClaim_one_row (db : Db) (job : SyncJob) (now : Nat)
    (h : ¬(db.jobs.filter (claimMatches job)).length ≠ 1) :
    tryClaim db job now =
      ((claimedDb db job now).jobs.find? (fun j => decide (j.id = job.id)),
       claimedDb db job now) := by
  rw [tryClaim]
  rw [if_neg h]

/-- The conditional update never changes a row's id. -/
theorem claimUpdateRow_id (job : SyncJob) (now : Nat) (a : SyncJob) :
    (claimUpdateRow job now a).id = a.id := by
  by_cases h : claimMatches job a = true <;> simp [claimUpdateRow, h]

/-- A row is `queued` after the conditional update only if it was an
untouched `queued` row (the updated row itself becomes `running`). -/
theorem claimUpdateRow_queued (job : SyncJob) (now : Nat) (a : SyncJob)
    (h : (claimUpdateRow job now a).status = JobStatus.queued) :
    claimUpdateRow job now a = a := by
  by_cases hm : claimMatches job a = true
  · rw [claimUpdateRow, if_pos hm] at h
    exact absurd h (by simp)
  · rw [claimUpdateRow, if_neg hm]

/-- The conditional update leaves no queued row under an id that had none. -/
theorem claim_map_not_queued (db : Db) (job : SyncJob) (now : Nat) (jid : Nat)
    (hnq : NotQueuedWithId db jid) :
    ∀ j ∈ db.jobs.map (claimUpdateRow job now),
      j.id = jid → j.status ≠ JobStatus.queued := by
  intro j hj hid hq
  obtain ⟨a, ha, rfl⟩ := List.mem_map.mp hj
  have hup := claimUpdateRow_queued job now a hq
  rw [hup] at hq
  rw [claimUpdateRow_id] at hid
  exact hnq a ha hid hq

/-- Every engine transition preserves "the id exists and is no longer
queued" — nothing ever re-queues a claimed job, and freshness of enqueued
ids protects existing ones. -/
theorem sysStep_preserves_claimed (db db' : Db) (h : SysStep db db')
    (jid : Nat) (hhas : HasId db jid) (hnq : NotQueuedWithId db jid) :
    HasId db' jid ∧ NotQueuedWithId db' jid := by
  cases h with
  | enqueue_step uid v trig nid cat fresh =>
    obtain ⟨j0, hj0, hid⟩ := hhas
    constructor
    · exact ⟨j0, List.mem_append_left _ hj0, hid⟩
    · intro j hj hjid
      rcases List.mem_append.mp hj with hj' | hnew
      · exact hnq j hj' hjid
      · obtain rfl := List.mem_singleton.mp hnew
        exact absurd (hid.trans hjid.symm) (fresh j0 hj0)
  | claim_step job now =>
    by_cases hc : (db.jobs.filter (claimMatches job)).length ≠ 1
    · rw [tryClaim_zero_rows db job now hc]
      exact ⟨hhas, hnq⟩
    · rw [tryClaim_one_row db job now hc]
      constructor
      · obtain ⟨j0, hj0, hid⟩ := hhas
        exact ⟨claimUpdateRow job now j0, List.mem_map_of_mem _ hj0,
          by rw [claimUpdateRow_id]; exact hid⟩
      · exact claim_map_not_queued db job now jid hnq
  | mark_success_step jid' now hrun =>
    rcases hf : findJob db jid' with _ | job
    · rw [mark_success, hf]
      exact ⟨hhas, hnq⟩
    · rw [mark_success, hf]
      constructor
      · obtain ⟨j0, hj0, hid⟩ := hhas
        rcases updateFirst_mem_or (fun j => decide (j.id = jid'))
            (fun j => { j with
              status := JobStatus.success
              finished_at := some now
              last_error := none }) db.jobs j0 hj0 with hl | hr
        · exact ⟨j0, hl, hid⟩
        · exact ⟨_, hr, hid⟩
      · intro j hj hid2 hq
        rcases mem_updateFirst_cases hj with hl | ⟨a, ha, hpa, rfl⟩
        · exact hnq j hl hid2 hq
        · exact absurd hq (by simp)
  | mark_failed_step jid' e now hrun =>
    rcases hf : findJob db jid' with _ | job
    · rw [mark_failed, hf]
      exact ⟨hhas, hnq⟩
    · rw [mark_failed, hf]
      constructor
      · obtain ⟨j0, hj0, hid⟩ := hhas
        rcases updateFirst_mem_or (fun j => decide (j.id = jid'))
            (fun j => { j with
              status := JobStatus.failed
              finished_at := some now
              last_error := some e }) db.jobs j0 hj0 with hl | hr
        · exact ⟨j0, hl, hid⟩
        · exact ⟨_, hr, hid⟩
      · intro j hj hid2 hq
        rcases mem_updateFirst_cases hj with hl | ⟨a, ha, hpa, rfl⟩
        · exact hnq j hl hid2 hq
        · exact absurd hq (by simp)

/-- The claimed-job invariant is preserved along any reachable run. -/
theorem sysReach_preserves_claimed (db db2 : Db) (h : SysReach db db2)
    (jid : Nat) (hinv : HasId db jid ∧ NotQueuedWithId db jid) :
    HasId db2 jid ∧ NotQueuedWithId db2 jid := by
  have h' : Relation.ReflTransGen SysStep db db2 := h
  clear h
  induction h' with
  | refl => exact hinv
  | tail hab hbc ih =>
    exact sysStep_preserves_claimed _ _ hbc jid ih.1 ih.2

/-- `jobStatus` unfolded to its `find?` form. -/
theorem jobStatus_def (d : Db) (jid : Nat) :
    jobStatus d jid
      = (d.jobs.find? (fun j => decide (j.id = jid))).map (fun j => j.status) :=
  rfl

/-- Each engine transition moves each job id's status only along the
allowed edges. -/
theorem sysStep_allowed (db db' : Db) (h : SysStep db db') (jid : Nat) :
    allowedTransition (jobStatus db jid) (jobStatus db' jid) := by
  cases h with
  | enqueue_step uid v trig nid cat fresh =>
    rw [jobStatus_def, jobStatus_def]
    simp only [enqueue]
    rw [find?_append]
    rcases hf : db.jobs.find? (fun j => decide (j.id = jid)) with _ | j <;>
      rw [hf] <;> simp only [Option.orElse] <;> try dsimp only
    · by_cases hid : nid = jid
      · rw [List.find?_cons_of_pos _ (by simp [hid])]
        exact .inr (.inl ⟨rfl, rfl⟩)
      · rw [List.find?_cons_of_neg _ (by simp [hid])]
        exact .inl rfl
    · exact .inl rfl
  | claim_step job now =>
    by_cases hc : (db.jobs.filter (claimMatches job)).length ≠ 1
    · rw [tryClaim_zero_rows db job now hc]
      exact .inl rfl
    · rw [tryClaim_one_row db job now hc]
      rw [jobStatus_def, jobStatus_def]
      dsimp only [claimedDb]
      rw [find?_map_comm _ _ _ (fun a => by rw [claimUpdateRow_id])]
      rcases hf : db.jobs.find? (fun j => decide (j.id = jid)) with _ | j0 <;>
        rw [hf]
      · exact .inl rfl
      · simp only [Option.map]
        by_cases hm : claimMatches job j0 = true
        · have hq : j0.status = JobStatus.queued :=
            (decide_eq_true_eq.mp hm).2
          have hrow : (claimUpdateRow job now j0).status = JobStatus.running := by
            rw [claimUpdateRow, if_pos hm]
          rw [hrow, hq]
          exact .inr (.inr (.inl ⟨rfl, rfl⟩))
        · have heq : claimUpdateRow job now j0 = j0 := by
            rw [claimUpdateRow, if_neg hm]
          rw [heq]
          exact .inl rfl
  | mark_success_step jid' now hrun =>
    rcases hf : findJob db jid' with _ | job
    · rw [mark_success, hf]
      exact .inl rfl
    · rw [mark_success, hf]
      by_cases hjj : jid = jid'
      · subst hjj
        rw [hrun, jobStatus_def]
        dsimp only
        rw [find?_updateFirst_self (fun j => decide (j.id = jid))
          (fun j => { j with
            status := JobStatus.success
            finished_at := some now
            last_error := none }) db.jobs (fun a => rfl)]
        rw [show db.jobs.find? (fun j => decide (j.id = jid)) = some job
          from hf]
        exact .inr (.inr (.inr ⟨rfl, .inl rfl⟩))
      · rw [jobStatus_def, jobStatus_def]
        dsimp only
        rw [find?_updateFirst_other (fun j => decide (j.id = jid'))
          (fun j => decide (j.id = jid))
          (fun j => { j with
            status := JobStatus.success
            finished_at := some now
            last_error := none }) db.jobs
          (fun a ha => by
            simp only [decide_eq_true_eq] at ha
            simp [ha, Ne.symm hjj]) (fun a => rfl)]
        exact .inl rfl
  | mark_failed_step jid' e now hrun =>
    rcases hf : findJob db jid' with _ | job
    · rw [mark_failed, hf]
      exact .inl rfl
    · rw [mark_failed, hf]
      by_cases hjj : jid = jid'
      · subst hjj
        rw [hrun, jobStatus_def]
        dsimp only
        rw [find?_updateFirst_self (fun j => decide (j.id = jid))
          (fun j => { j with
            status := JobStatus.failed
            finished_at := some now
            last_error := some e }) db.jobs (fun a => rfl)]
        rw [show db.jobs.find? (fun j => decide (j.id = jid)) = some job
          from hf]
        exact .inr (.inr (.inr ⟨rfl, .inr rfl⟩))
      · rw [jobStatus_def, jobStatus_def]
        dsimp only
        rw [find?_updateFirst_other (fun j => decide (j.id = jid'))
          (fun j => decide (j.id = jid))
          (fun j => { j with
            status := JobStatus.failed
            finished_at := some now
            last_error := some e }) db.jobs
          (fun a ha => by
            simp only [decide_eq_true_eq] at ha
            simp [ha, Ne.symm hjj]) (fun a => rfl)]
        exact .inl rfl

/-- C2 — Job claim exclusivity and monotonic status.  Conjuncts:
1. every engine transition moves every job id's status only along
   `queued → running → {success|failed}` (or creates a fresh `queued` row);
2. a successful `claim_next_queued_job` picked a queued row of minimal
   creation order and returned it transitioned `queued → running` with
   `started_at = now` and `attempts` incremented (ids unique, as the
   primary key guarantees);
3. a claim attempt whose conditional update affects zero (or, with
   duplicated ids, several) rows returns no job and leaves the database
   untouched — no internal retry;
4. claims are exclusive: once a claim attempt has returned the job with a
   given id, no claim attempt run against any state reachable through
   further engine transitions — by this or any other worker — can return a
   job with that id again. -/
theorem job_claim_exclusive_and_monotonic :
    (∀ db db' : Db, SysStep db db' → ∀ jid : Nat,
        allowedTransition (jobStatus db jid) (jobStatus db' jid))
    ∧ (∀ (db : Db) (now : Nat), UniqueJobIds db → ∀ (j1 : SyncJob) (db2 : Db),
        claim_next_queued_job db now = (some j1, db2) →
          ∃ j0 ∈ db.jobs, j0.status = JobStatus.queued
            ∧ (∀ k ∈ db.jobs, k.status = JobStatus.queued →
                j0.created_at ≤ k.created_at)
            ∧ j1 = { j0 with
                status := JobStatus.running
                started_at := some now
                attempts := j0.attempts + 1 }
            ∧ jobStatus db2 j0.id = some JobStatus.running)
    ∧ (∀ (db : Db) (job : SyncJob) (now : Nat),
        (db.jobs.filter (claimMatches job)).length ≠ 1 →
          tryClaim db job now = (none, db))
    ∧ (∀ (db : Db) (job : SyncJob) (now : Nat) (j1 : SyncJob),
        (tryClaim db job now).1 = some j1 →
        ∀ db2 : Db, SysReach (tryClaim db job now).2 db2 →
        ∀ (job' : SyncJob) (now' : Nat) (j2 : SyncJob),
          (tryClaim db2 job' now').1 = some j2 → j2.id ≠ job.id) := by
  refine ⟨sysStep_allowed, ?_, tryClaim_zero_rows, ?_⟩
  · intro db now huniq j1 db2 hclaim
    rw [claim_next_queued_job] at hclaim
    rcases hsel : selectOldestQueued db.jobs with _ | j0 <;>
      rw [hsel] at hclaim <;> dsimp only at hclaim
    · exact absurd hclaim (by simp)
    · obtain ⟨hmem, hq, hmin⟩ := selectOldestQueued_spec db.jobs j0 hsel
      by_cases hc : (db.jobs.filter (claimMatches j0)).length ≠ 1
      · rw [tryClaim_zero_rows db j0 now hc] at hclaim
        exact absurd hclaim (by simp)
      · rw [tryClaim_one_row db j0 now hc] at hclaim
        injection hclaim with h1 h2
        rw [claimedDb_jobs] at h1
        rw [find?_map_comm _ _ _ (fun a => by rw [claimUpdateRow_id])] at h1
        rw [find?_id_of_unique db.jobs huniq j0 hmem] at h1
        simp only [Option.map] at h1
        obtain rfl := Option.some_injective _ h1
        have hrow : claimUpdateRow j0 now j0
            = { j0 with
                status := JobStatus.running
                started_at := some now
                attempts := j0.attempts + 1 } := by
          rw [claimUpdateRow, if_pos (by simp [claimMatches, hq])]
        refine ⟨j0, hmem, hq, hmin, hrow, ?_⟩
        rw [← h2, jobStatus_def, claimedDb_jobs]
        rw [find?_map_comm _ _ _ (fun a => by rw [claimUpdateRow_id])]
        rw [find?_id_of_unique db.jobs huniq j0 hmem]
        simp only [Option.map]
        rw [hrow]
  · intro db job now j1 h1 db2 hreach job' now' j2 h2 heq
    by_cases hc : (db.jobs.filter (claimMatches job)).length ≠ 1
    · rw [tryClaim_zero_rows db job now hc] at h1
      exact absurd h1 (by simp)
    · rw [tryClaim_one_row db job now hc] at h1 hreach
      push_neg at hc
      have hne : db.jobs.filter (claimMatches job) ≠ [] := by
        intro hnil
        rw [hnil] at hc
        exact absurd hc (by simp)
      obtain ⟨jq, hjq⟩ := List.exists_mem_of_ne_nil _ hne
      obtain ⟨hjqmem, hjqm⟩ := List.mem_filter.mp hjq
      have hjqid : jq.id = job.id := (decide_eq_true_eq.mp hjqm).1
      have hjqq : jq.status = JobStatus.queued := (decide_eq_true_eq.mp hjqm).2
      have hinv1 : HasId (claimedDb db job now) job.id
          ∧ NotQueuedWithId (claimedDb db job now) job.id := by
        constructor
        · exact ⟨claimUpdateRow job now jq, List.mem_map_of_mem _ hjqmem,
            by rw [claimUpdateRow_id]; exact hjqid⟩
        · intro j hj hid hqj
          obtain ⟨a, ha, rfl⟩ := List.mem_map.mp hj
          rw [claimUpdateRow_id] at hid
          have hq' : a.status = JobStatus.queued := by
            have hu := claimUpdateRow_queued job now a hqj
            rw [hu] at hqj
            exact hqj
          have hm : claimMatches job a = true := by
            simp [claimMatches, hid, hq']
          have hrow : (claimUpdateRow job now a).status = JobStatus.running := by
            rw [claimUpdateRow, if_pos hm]
          rw [hrow] at hqj
          exact absurd hqj (by simp)
      have hinv2 := sysReach_preserves_claimed _ db2 hreach job.id hinv1
      by_cases hc2 : (db2.jobs.filter (claimMatches job')).length ≠ 1
      · rw [tryClaim_zero_rows db2 job' now' hc2] at h2
        exact absurd h2 (by simp)
      · rw [tryClaim_one_row db2 job' now' hc2] at h2
        have hid2 : j2.id = job'.id := by
          have h2' : (claimedDb db2 job' now').jobs.find?
              (fun j => decide (j.id = job'.id)) = some j2 := h2
          simpa using List.find?_some h2'
        push_neg at hc2
        have hne2 : db2.jobs.filter (claimMatches job') ≠ [] := by
          intro hnil
          rw [hnil] at hc2
          exact absurd hc2 (by simp)
        obtain ⟨x, hx⟩ := List.exists_mem_of_ne_nil _ hne2
        obtain ⟨hxmem, hxm⟩ := List.mem_filter.mp hx
        have hxid : x.id = job'.id := (decide_eq_true_eq.mp hxm).1
        have hxq : x.status = JobStatus.queued := (decide_eq_true_eq.mp hxm).2
        exact hinv2.2 x hxmem (by rw [hxid, ← hid2, heq]) hxq

/-- C2 witness: claiming from the one-queued-job database transitions job 1
to `running`. -/
theorem job_claim_exclusive_and_monotonic_witness :
    jobStatus { jobs := [{ c2Job with
        status := JobStatus.running
        started_at := some 7
        attempts := 1 }], integrations := ([] : List VendorIntegration) } 1
      = some JobStatus.running := by
  obtain ⟨j0, hmem, hq, hmin, hj1, hstat⟩ :=
    job_claim_exclusive_and_monotonic.2.1 c2Db 7
      (by simp [UniqueJobIds, c2Db])
      { c2Job with
        status := JobStatus.running
        started_at := some 7
        attempts := 1 }
      { jobs := [{ c2Job with
          status := JobStatus.running
          started_at := some 7
          attempts := 1 }], integrations := ([] : List VendorIntegration) }
      (by rfl)
  obtain rfl := List.mem_singleton.mp hmem
  exact hstat

end PHR
